import Mathlib

/-!
# Verification of `pkg/datapath/config/unmarshal.go`

A shallow embedding of `StructToMap` and `structFields`, the reflective
conversion of a configuration record into a map from tag strings to field
values, followed by theorems about it.

Go values are modelled as finite trees (`Value`); a record graph with a pointer
cycle is therefore not a value of the model, and the theorems say nothing about
it (on such a graph the program can recurse without bound).  What the source observes
through package `reflect` is modelled explicitly: the kind and identity of a
type (`GoType`), the static description of a field (`StructField`), the
read-only bits of a `reflect.Value` (`Flag`) and the struct tag lookup
(`StructTag.Get`).
-/

namespace Config

/-! ## Data model -/

/-- Kinds of Go types, as enumerated by `reflect.Kind` (sized integer kinds are
merged into `Int`, `Uint`, `Float` and `Complex`). -/
inductive Kind
  | Bool | Int | Uint | Float | Complex | Array | Chan | Func | Interface
  | Map | Ptr | Slice | String | Struct | UnsafePointer
  deriving DecidableEq

/-- Kinds other than `Ptr`, `Struct` and `Interface`. -/
inductive OtherKind
  | Bool | Int | Uint | Float | Complex | Array | Chan | Func
  | Map | Slice | String | UnsafePointer
  deriving DecidableEq

/-- Embedding of `OtherKind` into `Kind`. -/
def OtherKind.toKind : OtherKind → Kind
  | OtherKind.Bool => Kind.Bool
  | OtherKind.Int => Kind.Int
  | OtherKind.Uint => Kind.Uint
  | OtherKind.Float => Kind.Float
  | OtherKind.Complex => Kind.Complex
  | OtherKind.Array => Kind.Array
  | OtherKind.Chan => Kind.Chan
  | OtherKind.Func => Kind.Func
  | OtherKind.Map => Kind.Map
  | OtherKind.Slice => Kind.Slice
  | OtherKind.String => Kind.String
  | OtherKind.UnsafePointer => Kind.UnsafePointer

/-- A Go type as seen through `reflect.Type`: its identity (the name, or the
literal text of an unnamed type) and its kind.  Pointer types carry their
element type, which is what `Type.Elem()` returns. -/
inductive GoType
  | other (name : String) (k : OtherKind)
  | iface (name : String)
  | struct (name : String)
  | ptr (elem : GoType)
  deriving DecidableEq

/-- The method `reflect.Type.Kind()`. -/
def GoType.Kind : GoType → Kind
  | GoType.other _ k => k.toKind
  | GoType.iface _ => Kind.Interface
  | GoType.struct _ => Kind.Struct
  | GoType.ptr _ => Kind.Ptr

/-- A struct tag (`reflect.StructTag`), parsed into its `key:"value"` pairs. -/
abbrev StructTag := List (String × String)

/-- The method `reflect.StructTag.Get`: the value associated with `key` in the
tag, or the empty string when the key is absent. -/
def StructTag.Get (t : StructTag) (key : String) : String :=
  match List.lookup key t with
  | some v => v
  | none => ""

/-- The static part of `reflect.StructField` that the source reads: the field
name, the package path (empty exactly for exported fields), the tag and whether
the field is embedded.  The field type is the type of the field value. -/
structure StructField where
  Name : String
  PkgPath : String
  Tag : StructTag
  Anonymous : Bool
  deriving DecidableEq

/-- Go runtime values, as finite trees.

* `other`: a value of any kind except pointer, struct and interface; scalars
  carry a number, containers (arrays, slices, maps) carry their elements;
* `iface`: a value of interface type, nil or holding a dynamic value;
* `nilPtr`: a nil pointer of type `*elem`;
* `ptrTo`: a non-nil pointer together with the value it points to;
* `struct`: a record of the named type, with its fields in declaration order. -/
inductive Value
  | other (ty : String) (k : OtherKind) (n : Int) (elems : List Value)
  | iface (ty : String) (dyn : Option Value)
  | nilPtr (elem : GoType)
  | ptrTo (target : Value)
  | struct (ty : String) (fields : List (StructField × Value))

/-- The method `reflect.Value.Type()` (for fields this is also
`reflect.StructField.Type`, the declared type). -/
def Value.Type : Value → GoType
  | Value.other ty k _ _ => GoType.other ty k
  | Value.iface ty _ => GoType.iface ty
  | Value.nilPtr elem => GoType.ptr elem
  | Value.ptrTo target => GoType.ptr (Value.Type target)
  | Value.struct ty _ => GoType.struct ty

/-- A Go interface value of type `any`: nil (`none`) or a dynamic value. -/
abbrev GoAny := Option Value

/-- The read-only bits of a `reflect.Value` flag word: `flagStickyRO` (obtained
through an unexported, not embedded field) and `flagEmbedRO` (obtained through
an unexported embedded field). -/
structure Flag where
  stickyRO : Bool
  embedRO : Bool
  deriving DecidableEq

/-- The flag of a value returned by `reflect.ValueOf`: not read-only. -/
def Flag.rw : Flag := ⟨false, false⟩

/-- The flag computed by `reflect.Value.Field(i)`: `flagStickyRO` is inherited
from the record, `flagEmbedRO` is cleared, and an unexported field sets
`flagEmbedRO` when embedded and `flagStickyRO` otherwise. -/
def Flag.field (fl : Flag) (sf : StructField) : Flag :=
  ⟨fl.stickyRO || (decide (sf.PkgPath ≠ "") && !sf.Anonymous),
   decide (sf.PkgPath ≠ "") && sf.Anonymous⟩

/-- The flag computed by `reflect.Value.Elem()` on a pointer: both read-only
bits are inherited. -/
def Flag.elem (fl : Flag) : Flag := fl

/-- A `reflect.Value`: a Go value together with its read-only bits. -/
structure RValue where
  val : Value
  flag : Flag

/-- The runtime value of a Go value as an `any`: the value itself, or, for a
value of interface kind, the value it holds (nil for a nil interface). -/
def Value.Interface : Value → GoAny
  | Value.iface _ dyn => dyn
  | x => some x

/-- The method `reflect.Value.Interface()`: `none` stands for the run-time
panic raised on a value obtained through an unexported field; otherwise the
runtime value as an `any`. -/
def RValue.Interface (v : RValue) : Option GoAny :=
  if v.flag.stickyRO || v.flag.embedRO then none
  else some v.val.Interface

/-- The struct `structField` of the source: a `reflect.StructField` together
with the `reflect.Value` of the field. -/
structure structField extends StructField where
  value : RValue

/-- The errors built with `fmt.Errorf` in the source, one constructor per
format string, named as in the error taxonomy. -/
inductive Error
  /-- The message `%T is not a pointer to struct`. -/
  | NotAPointer (ty : GoType)
  /-- The message `nil pointer to %T` of `StructToMap`. -/
  | NilReference (ty : GoType)
  /-- The message `%s is not a struct`. -/
  | NotAStruct (ty : GoType)
  /-- The message `recursion on type %s`. -/
  | RecursiveType (ty : GoType)
  /-- The message `nil pointer to %s` of `structFields`. -/
  | NilNestedReference (ty : GoType)
  /-- The message `field %s has no tag`. -/
  | UntaggedField (name : String)
  /-- The message `tag %s on field %s occurs multiple times in object`. -/
  | DuplicateTag (tag : String) (name : String)
  /-- The message `field %s: %w`, wrapping `inner`. -/
  | Wrapped (name : String) (inner : Error)
  deriving DecidableEq

/-- Repeated `errors.Unwrap`: the innermost error of a chain of wrappers. -/
def Error.root : Error → Error
  | Error.Wrapped _ inner => Error.root inner
  | e => e

/-- The chain of field names recorded by the wrappers, outermost first. -/
def Error.path : Error → List String
  | Error.Wrapped name inner => name :: Error.path inner
  | _ => []

/-- A Go `map[reflect.Type]bool`, as an association list. -/
abbrev Visited := List (GoType × Bool)

/-- The index expression `visited[t]`: false for an absent key. -/
def visitedGet (visited : Visited) (t : GoType) : Bool :=
  match List.lookup t visited with
  | some b => b
  | none => false

/-- A Go `map[string]any`, as an association list with distinct keys. -/
abbrev GoMap := List (String × GoAny)

/-- The index expression `vars[tag]`: nil for an absent key. -/
def mapGet (vars : GoMap) (tag : String) : GoAny :=
  match List.lookup tag vars with
  | some a => a
  | none => none

/-- The assignment `vars[tag] = a`: overwrites the entry of an existing key,
adds an entry otherwise. -/
def mapSet : GoMap → String → GoAny → GoMap
  | [], tag, a => [(tag, a)]
  | (k, b) :: rest, tag, a =>
    if k = tag then (k, a) :: rest else (k, b) :: mapSet rest tag a

/-- The keys of a map. -/
def mapKeys (vars : GoMap) : List String := vars.map Prod.fst

/-- The built-in `len` on a map. -/
def mapLen (vars : GoMap) : Nat := vars.length

/-- What a call of a Go function returning `(α, error)` does: it returns a pair
(a nil first component is `none`, a nil error is `none`) or it panics. -/
inductive Outcome (α : Type)
  | ret (val : Option α) (err : Option Error)
  | panic

/-- Modelled from the spec: the constant `TagName` is declared outside the
source file; it is the fixed, process-wide tag name, which the documentation
of `StructToMap` gives as `config`. -/
def TagName : String := "config"

/-! ## The program -/

mutual
/-- The function `structFields` (source lines 56-114).  The `reflect.Value`
argument is passed as its value and its flag. -/
def structFields (structVal : Value) (fl : Flag) (tag : String)
    (visited : Option Visited) : Except Error (List structField) :=
  -- if visited == nil: visited = make(map[reflect.Type]bool)
  let visited : Visited := match visited with
    | some m => m
    | none => []
  match structVal with
  | Value.struct ty fs =>
    -- if visited[structType]: return nil, recursion on type
    if visitedGet visited (GoType.struct ty) then
      Except.error (Error.RecursiveType (GoType.struct ty))
    else
      -- fields := make([]structField, 0, n); for i := range n
      structFieldsLoop (GoType.struct ty) fs fl tag visited []
  | Value.other ty k _ _ =>
    -- structType.Kind() != reflect.Struct
    Except.error (Error.NotAStruct (GoType.other ty k))
  | Value.iface ty _ => Except.error (Error.NotAStruct (GoType.iface ty))
  | Value.nilPtr elem => Except.error (Error.NotAStruct (GoType.ptr elem))
  | Value.ptrTo target =>
    Except.error (Error.NotAStruct (GoType.ptr (Value.Type target)))
/-- The body of the `for` loop of `structFields` (source lines 71-111), run on
the fields not yet examined, with the slice `fields` gathered so far. -/
def structFieldsLoop (structType : GoType) (rest : List (StructField × Value))
    (fl : Flag) (tag : String) (visited : Visited)
    (fields : List structField) : Except Error (List structField) :=
  match rest with
  | [] => Except.ok fields
  | (sf, fv) :: rest =>
    -- field := structField(structType.Field(i), structVal.Field(i))
    let field : structField := { toStructField := sf, value := ⟨fv, fl.field sf⟩ }
    -- If the field is tagged, gather it and move on.
    if field.Tag.Get tag ≠ "" then
      structFieldsLoop structType rest fl tag visited (fields ++ [field])
    else
      match fv with
      | Value.nilPtr elem =>
        -- case reflect.Ptr
        if elem.Kind ≠ Kind.Struct then
          structFieldsLoop structType rest fl tag visited fields
        else
          -- field.value.IsNil()
          Except.error (Error.NilNestedReference structType)
      | Value.ptrTo target =>
        -- case reflect.Ptr
        if (Value.Type target).Kind ≠ Kind.Struct then
          structFieldsLoop structType rest fl tag visited fields
        else
          -- v = field.value.Elem()
          match structFields target field.value.flag.elem tag (some visited) with
          | Except.error err => Except.error (Error.Wrapped field.Name err)
          | Except.ok inner =>
            structFieldsLoop structType rest fl tag visited (fields ++ inner)
      | Value.struct ty fs =>
        -- case reflect.Struct: v = field.value
        match structFields (Value.struct ty fs) field.value.flag tag (some visited) with
        | Except.error err => Except.error (Error.Wrapped field.Name err)
        | Except.ok inner =>
          structFieldsLoop structType rest fl tag visited (fields ++ inner)
      | Value.other _ _ _ _ =>
        -- default: continue
        structFieldsLoop structType rest fl tag visited fields
      | Value.iface _ _ =>
        structFieldsLoop structType rest fl tag visited fields
end

/-- The `for` loop of `StructToMap` (source lines 32-43) on the descriptors not
yet folded, with the map `vars` built so far. -/
def foldFields : List structField → GoMap → Outcome GoMap
  | [], vars => Outcome.ret (some vars) none
  | field :: rest, vars =>
    let tag := field.Tag.Get TagName
    if tag = "" then
      Outcome.ret none (some (Error.UntaggedField field.Name))
    else if (mapGet vars tag).isSome then
      -- vars[tag] != nil
      Outcome.ret none (some (Error.DuplicateTag tag field.Name))
    else
      match field.value.Interface with
      | none => Outcome.panic
      | some a => foldFields rest (mapSet vars tag a)

/-- The function `StructToMap` (source lines 16-46).  The argument `obj any` is
nil (`none`) or holds a dynamic value. -/
def StructToMap (obj : GoAny) : Outcome GoMap :=
  match obj with
  | none =>
    -- reflect.ValueOf(nil) is the zero Value, on which Type() panics
    Outcome.panic
  | some (Value.nilPtr elem) =>
    -- toValue.IsNil()
    Outcome.ret none (some (Error.NilReference (GoType.ptr elem)))
  | some (Value.ptrTo target) =>
    match structFields target Flag.rw.elem TagName none with
    | Except.error err => Outcome.ret none (some err)
    | Except.ok fields => foldFields fields []
  | some toValue =>
    -- toValue.Type().Kind() != reflect.Ptr
    Outcome.ret none (some (Error.NotAPointer toValue.Type))

/-! ## Auxiliary definitions used in the statements -/

/-- The descriptor built for the field `sf` with value `fv` of a record whose
flag is `fl` (source line 72). -/
def descriptor (fl : Flag) (sf : StructField) (fv : Value) : structField :=
  { toStructField := sf, value := ⟨fv, fl.field sf⟩ }

/-- What one iteration of the loop of `structFields` appends to `fields`, or
the error it returns (source lines 72-110). -/
def fieldStep (structType : GoType) (sf : StructField) (fv : Value) (fl : Flag)
    (tag : String) (visited : Visited) : Except Error (List structField) :=
  if sf.Tag.Get tag ≠ "" then Except.ok [descriptor fl sf fv]
  else
    match fv with
    | Value.nilPtr elem =>
      if elem.Kind ≠ Kind.Struct then Except.ok []
      else Except.error (Error.NilNestedReference structType)
    | Value.ptrTo target =>
      if (Value.Type target).Kind ≠ Kind.Struct then Except.ok []
      else
        match structFields target (fl.field sf).elem tag (some visited) with
        | Except.error err => Except.error (Error.Wrapped sf.Name err)
        | Except.ok inner => Except.ok inner
    | Value.struct ty fs =>
      match structFields (Value.struct ty fs) (fl.field sf) tag (some visited) with
      | Except.error err => Except.error (Error.Wrapped sf.Name err)
      | Except.ok inner => Except.ok inner
    | Value.other _ _ _ _ => Except.ok []
    | Value.iface _ _ => Except.ok []

/-- Prefixing the slice gathered so far to the result of a loop. -/
def prepend (acc : List structField) :
    Except Error (List structField) → Except Error (List structField)
  | Except.ok r => Except.ok (acc ++ r)
  | Except.error e => Except.error e

/-- The tag string a descriptor carries for `TagName`. -/
def tagOf (d : structField) : String := d.Tag.Get TagName

/-- The static field and the value a descriptor stands for. -/
def structField.source (d : structField) : StructField × Value :=
  (d.toStructField, d.value.val)

/-- The result of a call of `structFields` as a sequence: the descriptors it
returned, the empty sequence when it failed. -/
def resultOf : Except Error (List structField) → List structField
  | Except.ok r => r
  | Except.error _ => []

/-- Stated from the specification of the result order: what a field
contributes to the result of `structFields` on its record: its single
descriptor if it carries a non-empty tag; the result of `structFields` on its
value if it is an untagged record, on its dereferenced value if it is an
untagged non-nil pointer to a record; the empty sequence otherwise. -/
def contribution (fl : Flag) (tag : String) (visited : Visited)
    (f : StructField × Value) : List structField :=
  if f.1.Tag.Get tag ≠ "" then [descriptor fl f.1 f.2]
  else
    match f.2 with
    | Value.struct ty fs =>
      resultOf (structFields (Value.struct ty fs) (fl.field f.1) tag (some visited))
    | Value.ptrTo (Value.struct ty fs) =>
      resultOf (structFields (Value.struct ty fs) (fl.field f.1).elem tag (some visited))
    | _ => []

mutual
/-- Stated from the specification of the result map: the fields carrying a
non-empty tag that are reachable from a record through untagged record fields
and untagged non-nil pointer-to-record fields, each with its value. -/
def reachableTagged (tag : String) : Value → List (StructField × Value)
  | Value.struct _ fs => reachableTaggedFields tag fs
  | _ => []
/-- The tagged fields reachable from the fields of a record. -/
def reachableTaggedFields (tag : String) :
    List (StructField × Value) → List (StructField × Value)
  | [] => []
  | (sf, fv) :: rest =>
    if sf.Tag.Get tag ≠ "" then (sf, fv) :: reachableTaggedFields tag rest
    else
      match fv with
      | Value.struct ty fs =>
        reachableTagged tag (Value.struct ty fs) ++ reachableTaggedFields tag rest
      | Value.ptrTo target =>
        reachableTagged tag target ++ reachableTaggedFields tag rest
      | Value.nilPtr _ => reachableTaggedFields tag rest
      | Value.other _ _ _ _ => reachableTaggedFields tag rest
      | Value.iface _ _ => reachableTaggedFields tag rest
end

/-- Two descriptors that the fold of `StructToMap` cannot tell apart but for
the value it stores: the same static field, the same read-only bits, and
runtime values that are both nil or both non-nil as an `any`. -/
def sameShape (d1 d2 : structField) : Prop :=
  d1.toStructField = d2.toStructField ∧ d1.value.flag = d2.value.flag ∧
    d1.value.val.Interface.isSome = d2.value.val.Interface.isSome

/-- How a call ended, without the map: `none` for a panic, otherwise the
returned error (`some none` when the error is nil). -/
def Outcome.status {α : Type} : Outcome α → Option (Option Error)
  | Outcome.ret _ err => some err
  | Outcome.panic => none

/-! ## Example records -/

/-- An exported, not embedded field with the given name and struct tag. -/
def exportedField (name : String) (tag : StructTag) : StructField :=
  ⟨name, "", tag, false⟩

/-- An unexported, not embedded field of package `config`. -/
def unexportedField (name : String) (tag : StructTag) : StructField :=
  ⟨name, "config", tag, false⟩

/-- The `int` value `n`. -/
def intValue (n : Int) : Value := Value.other "int" OtherKind.Int n []

/-- The nil value of the interface type `any`. -/
def nilAny : Value := Value.iface "any" none

/-- The record of type `Inner` with the single field `C int`, tagged `c`,
holding 7. -/
def scenarioInner : Value :=
  Value.struct "Inner" [(exportedField "C" [("config", "c")], intValue 7)]

/-- The record of type `Outer` with the fields `A int`, tagged `a`, holding 1,
and `B *Inner`, untagged, pointing to `scenarioInner`. -/
def scenarioOuter : Value :=
  Value.struct "Outer"
    [(exportedField "A" [("config", "a")], intValue 1),
     (exportedField "B" [], Value.ptrTo scenarioInner)]

/-- The record of type `Outer` with the fields `A int`, tagged `x`, holding 1,
and `B`, an untagged record whose single field `C int`, tagged `x`, holds 2. -/
def duplicateOuter : Value :=
  Value.struct "Outer"
    [(exportedField "A" [("config", "x")], intValue 1),
     (exportedField "B" [],
       Value.struct "Inner" [(exportedField "C" [("config", "x")], intValue 2)])]

/-- The record of type `Outer` with the fields `A int`, tagged `x`, holding 1,
and `B`, a record tagged `y` whose single field `C int`, tagged `x`, holds 2:
the record field `B` carries a tag itself. -/
def shadowOuter : Value :=
  Value.struct "Outer"
    [(exportedField "A" [("config", "x")], intValue 1),
     (exportedField "B" [("config", "y")],
       Value.struct "Inner" [(exportedField "C" [("config", "x")], intValue 2)])]

/-- The record of type `S` with the fields `A any`, holding nil, and `B int`,
holding 5, both tagged `x`. -/
def nilInterfaceRecord : Value :=
  Value.struct "S"
    [(exportedField "A" [("config", "x")], nilAny),
     (exportedField "B" [("config", "x")], intValue 5)]

/-- The record of the self-referential type `T`, whose single field `Next *T`,
untagged, is nil. -/
def selfNil : Value :=
  Value.struct "T" [(exportedField "Next" [], Value.nilPtr (GoType.struct "T"))]

/-- The record of the self-referential type `T`, whose single field `Next *T`,
tagged `next`, is nil. -/
def selfTaggedNil : Value :=
  Value.struct "T"
    [(exportedField "Next" [("config", "next")], Value.nilPtr (GoType.struct "T"))]

/-- The record of type `Outer` whose single field, described by `sf`, is a nil
pointer to a record of type `Inner`. -/
def taggedNilRecord (sf : StructField) : Value :=
  Value.struct "Outer" [(sf, Value.nilPtr (GoType.struct "Inner"))]

/-- Stated from the specification of error propagation: following from the
record `v` the untagged fields named `names`, each a record or a non-nil
pointer to a record, leads to the record `r`. -/
inductive FieldChain (tag : String) : Value → List String → Value → Prop
  | here (ty : String) (fs : List (StructField × Value)) :
    FieldChain tag (Value.struct ty fs) [] (Value.struct ty fs)
  | direct (ty : String) (fs : List (StructField × Value)) (sf : StructField)
    (w : Value) (names : List String) (r : Value) :
    (sf, w) ∈ fs → sf.Tag.Get tag = "" → FieldChain tag w names r →
    FieldChain tag (Value.struct ty fs) (sf.Name :: names) r
  | deref (ty : String) (fs : List (StructField × Value)) (sf : StructField)
    (w : Value) (names : List String) (r : Value) :
    (sf, Value.ptrTo w) ∈ fs → sf.Tag.Get tag = "" → FieldChain tag w names r →
    FieldChain tag (Value.struct ty fs) (sf.Name :: names) r

/-- The linked list of `n + 1` records of the self-referential type `T` with
the single untagged field `Next *T`: each record points to the next one and
the last `Next` is nil. -/
def selfChain : Nat → Value
  | 0 => selfNil
  | n + 1 => Value.struct "T" [(exportedField "Next" [], Value.ptrTo (selfChain n))]

/-- The error `e` wrapped `n` times by the field name `Next`. -/
def wrapNext : Nat → Error → Error
  | 0, e => e
  | n + 1, e => Error.Wrapped "Next" (wrapNext n e)

/-- The record of type `Outer` with two untagged sibling fields of the same
record type: `L Inner` and `R *Inner`, where the single field `C int` of
`Inner` is tagged `c`. -/
def siblingsOuter : Value :=
  Value.struct "Outer"
    [(exportedField "L" [],
       Value.struct "Inner" [(exportedField "C" [("config", "c")], intValue 1)]),
     (exportedField "R" [], Value.ptrTo
       (Value.struct "Inner" [(exportedField "C" [("config", "c")], intValue 2)]))]

/-- The record of type `S` whose single field `x int`, unexported, is tagged
`x` and holds 1. -/
def unexportedTagged : Value :=
  Value.struct "S" [(unexportedField "x" [("config", "x")], intValue 1)]

/-- A slice of type `[]Inner` with one record, whose field `C` is tagged `c`
and whose untagged field `P *Inner` is nil. -/
def sliceOfRecords : Value :=
  Value.other "[]Inner" OtherKind.Slice 0
    [Value.struct "Inner"
      [(exportedField "C" [("config", "c")], intValue 3),
       (exportedField "P" [], Value.nilPtr (GoType.struct "Inner"))]]

/-- The record of type `Outer` with the fields `A int`, tagged `a`, `B *Mid`,
untagged and non-nil, and `C int`, tagged `c`, where the single field
`P *Inner` of the record `Mid` is untagged and nil. -/
def nestedNil : Value :=
  Value.struct "Outer"
    [(exportedField "A" [("config", "a")], intValue 1),
     (exportedField "B" [], Value.ptrTo
       (Value.struct "Mid" [(exportedField "P" [], Value.nilPtr (GoType.struct "Inner"))])),
     (exportedField "C" [("config", "c")], intValue 3)]

/-- The record of type `S` with the fields `A int`, holding 1, and `B int`,
holding 2, both tagged `x`, followed by `C any`, tagged `z`, holding nil. -/
def duplicateBeforeNil : Value :=
  Value.struct "S"
    [(exportedField "A" [("config", "x")], intValue 1),
     (exportedField "B" [("config", "x")], intValue 2),
     (exportedField "C" [("config", "z")], nilAny)]

/-! # Theorems -/

/-! ## Basic facts about the traversal -/

/-- Induction over values and field lists together: the records nested in a
value are reached through its fields, directly or behind a pointer. -/
theorem Value.induction {P : Value → Prop} {Q : List (StructField × Value) → Prop}
    (hother : ∀ ty k n elems, P (Value.other ty k n elems))
    (hiface : ∀ ty dyn, P (Value.iface ty dyn))
    (hnil : ∀ elem, P (Value.nilPtr elem))
    (hptr : ∀ target, P target → P (Value.ptrTo target))
    (hstruct : ∀ ty fs, Q fs → P (Value.struct ty fs))
    (hnilL : Q [])
    (hcons : ∀ sf fv rest, P fv → (∀ target, fv = Value.ptrTo target → P target) →
      Q rest → Q ((sf, fv) :: rest)) :
    ∀ v, P v := fun v =>
  (@Value.rec (fun v => P v ∧ ∀ target, v = Value.ptrTo target → P target)
    (fun _ => True) (fun _ => True) Q
    (fun p => P p.2 ∧ ∀ target, p.2 = Value.ptrTo target → P target)
    (fun ty k n elems _ => ⟨hother ty k n elems, fun _ h => Value.noConfusion h⟩)
    (fun ty dyn _ => ⟨hiface ty dyn, fun _ h => Value.noConfusion h⟩)
    (fun elem => ⟨hnil elem, fun _ h => Value.noConfusion h⟩)
    (fun target ih => ⟨hptr target ih.1, fun t h => by
      cases h
      exact ih.1⟩)
    (fun ty fs ih => ⟨hstruct ty fs ih, fun _ h => Value.noConfusion h⟩)
    trivial (fun _ _ _ _ => trivial) trivial (fun _ _ => trivial)
    hnilL (fun hd tl h1 h2 => hcons hd.1 hd.2 tl h1.1 h1.2 h2) (fun _ _ h => h) v).1

theorem kind_struct_iff (v : Value) :
    v.Type.Kind = Kind.Struct ↔ ∃ ty fs, v = Value.struct ty fs := by
  cases v with
  | other ty k n elems => cases k <;> simp [Value.Type, GoType.Kind, OtherKind.toKind]
  | iface ty dyn => simp [Value.Type, GoType.Kind]
  | nilPtr elem => simp [Value.Type, GoType.Kind]
  | ptrTo target => simp [Value.Type, GoType.Kind]
  | struct ty fs => simp [Value.Type, GoType.Kind]

theorem kind_ptr_iff (v : Value) :
    v.Type.Kind = Kind.Ptr ↔ (∃ elem, v = Value.nilPtr elem) ∨ ∃ target, v = Value.ptrTo target := by
  cases v with
  | other ty k n elems => cases k <;> simp [Value.Type, GoType.Kind, OtherKind.toKind]
  | iface ty dyn => simp [Value.Type, GoType.Kind]
  | nilPtr elem => simp [Value.Type, GoType.Kind]
  | ptrTo target => simp [Value.Type, GoType.Kind]
  | struct ty fs => simp [Value.Type, GoType.Kind]

/-- A call of `structFields` with a nil `visited` behaves as with an empty map. -/
theorem structFields_nil_visited (v : Value) (fl : Flag) (tag : String) :
    structFields v fl tag none = structFields v fl tag (some []) := by
  cases v <;> simp [structFields]

/-- On a value that is not a record `structFields` returns `NotAStruct`. -/
theorem structFields_kind_ne_struct (v : Value) (fl : Flag) (tag : String)
    (visited : Option Visited) (h : v.Type.Kind ≠ Kind.Struct) :
    structFields v fl tag visited = Except.error (Error.NotAStruct v.Type) := by
  cases v with
  | other ty k n elems => simp [structFields, Value.Type]
  | iface ty dyn => simp [structFields, Value.Type]
  | nilPtr elem => simp [structFields, Value.Type]
  | ptrTo target => simp [structFields, Value.Type]
  | struct ty fs => exact absurd rfl h

/-- One iteration of the loop of `structFields`. -/
theorem structFieldsLoop_cons (st : GoType) (sf : StructField) (fv : Value)
    (rest : List (StructField × Value)) (fl : Flag) (tag : String) (vis : Visited)
    (acc : List structField) :
    structFieldsLoop st ((sf, fv) :: rest) fl tag vis acc
      = match fieldStep st sf fv fl tag vis with
        | Except.error e => Except.error e
        | Except.ok c => structFieldsLoop st rest fl tag vis (acc ++ c) := by
  by_cases ht : sf.Tag.Get tag = ""
  · cases fv with
    | other ty k n elems => simp [structFieldsLoop, fieldStep, ht]
    | iface ty dyn => simp [structFieldsLoop, fieldStep, ht]
    | nilPtr elem =>
      by_cases hk : elem.Kind = Kind.Struct <;> simp [structFieldsLoop, fieldStep, ht, hk]
    | ptrTo target =>
      by_cases hk : target.Type.Kind = Kind.Struct
      · simp only [structFieldsLoop, fieldStep, ht, hk]
        cases structFields target (fl.field sf).elem tag (some vis) <;> simp
      · simp [structFieldsLoop, fieldStep, ht, hk]
    | struct ty fs =>
      simp only [structFieldsLoop, fieldStep, ht]
      cases structFields (Value.struct ty fs) (fl.field sf) tag (some vis) <;> simp
  · cases fv <;> simp [structFieldsLoop, fieldStep, ht, descriptor]

/-- The slice gathered so far is a prefix of the result of the loop. -/
theorem structFieldsLoop_acc (st : GoType) (rest : List (StructField × Value)) (fl : Flag)
    (tag : String) (vis : Visited) (acc : List structField) :
    structFieldsLoop st rest fl tag vis acc
      = prepend acc (structFieldsLoop st rest fl tag vis []) := by
  induction rest generalizing acc with
  | nil => simp [structFieldsLoop, prepend]
  | cons hd tl ih =>
    obtain ⟨sf, fv⟩ := hd
    rw [structFieldsLoop_cons, structFieldsLoop_cons st sf fv tl fl tag vis []]
    cases fieldStep st sf fv fl tag vis with
    | error e => simp [prepend]
    | ok c =>
      simp only [List.nil_append]
      rw [ih (acc ++ c), ih c]
      cases structFieldsLoop st tl fl tag vis [] <;> simp [prepend]

/-- The loop on a concatenation of field lists runs on the first list, then on
the second one. -/
theorem structFieldsLoop_append (st : GoType) (l1 l2 : List (StructField × Value))
    (fl : Flag) (tag : String) (vis : Visited) (acc : List structField) :
    structFieldsLoop st (l1 ++ l2) fl tag vis acc
      = match structFieldsLoop st l1 fl tag vis acc with
        | Except.error e => Except.error e
        | Except.ok r => structFieldsLoop st l2 fl tag vis r := by
  induction l1 generalizing acc with
  | nil => simp [structFieldsLoop]
  | cons hd tl ih =>
    obtain ⟨sf, fv⟩ := hd
    rw [List.cons_append, structFieldsLoop_cons, structFieldsLoop_cons]
    cases fieldStep st sf fv fl tag vis with
    | error e => simp
    | ok c => simpa using ih (acc ++ c)

/-- On a record whose type is not marked in `visited`, `structFields` is the
loop over its fields. -/
theorem structFields_struct (ty : String) (fs : List (StructField × Value)) (fl : Flag)
    (tag : String) (vis : Visited) (h : visitedGet vis (GoType.struct ty) = false) :
    structFields (Value.struct ty fs) fl tag (some vis)
      = structFieldsLoop (GoType.struct ty) fs fl tag vis [] := by
  simp [structFields, h]

/-- With a nil `visited`, `structFields` on a record is the loop over its
fields with an empty map. -/
theorem structFields_struct_nil (ty : String) (fs : List (StructField × Value)) (fl : Flag)
    (tag : String) :
    structFields (Value.struct ty fs) fl tag none
      = structFieldsLoop (GoType.struct ty) fs fl tag [] [] := by
  simp [structFields, visitedGet]

/-- A successful iteration appends the contribution of the field. -/
theorem fieldStep_ok (st : GoType) (sf : StructField) (fv : Value) (fl : Flag)
    (tag : String) (vis : Visited) (c : List structField)
    (h : fieldStep st sf fv fl tag vis = Except.ok c) :
    c = contribution fl tag vis (sf, fv) := by
  by_cases ht : sf.Tag.Get tag = ""
  · cases fv with
    | other ty k n elems => simp_all [fieldStep, contribution]
    | iface ty dyn => simp_all [fieldStep, contribution]
    | nilPtr elem =>
      by_cases hk : elem.Kind = Kind.Struct <;> simp_all [fieldStep, contribution]
    | ptrTo target =>
      by_cases hk : target.Type.Kind = Kind.Struct
      · obtain ⟨ty, fs, rfl⟩ := (kind_struct_iff target).1 hk
        simp only [fieldStep, ht, hk] at h
        simp only [contribution, ht]
        cases hs : structFields (Value.struct ty fs) (fl.field sf).elem tag (some vis) with
        | error e => simp [hs] at h
        | ok inner => simp [hs] at h; simp [resultOf, h]
      · have hc : contribution fl tag vis (sf, Value.ptrTo target) = [] := by
          cases target with
          | struct ty fs => exact absurd rfl hk
          | _ => simp [contribution, ht]
        simp_all [fieldStep]
    | struct ty fs =>
      simp only [fieldStep, ht] at h
      simp only [contribution, ht]
      cases hs : structFields (Value.struct ty fs) (fl.field sf) tag (some vis) with
      | error e => simp [hs] at h
      | ok inner => simp [hs] at h; simp [resultOf, h]
  · simp_all [fieldStep, contribution]

/-- A successful loop returns the slice gathered so far followed by the
contributions of the fields, in order. -/
theorem structFieldsLoop_ok (st : GoType) (fs : List (StructField × Value)) (fl : Flag)
    (tag : String) (vis : Visited) (acc r : List structField)
    (h : structFieldsLoop st fs fl tag vis acc = Except.ok r) :
    r = acc ++ (fs.map (contribution fl tag vis)).flatten := by
  induction fs generalizing acc with
  | nil => simp_all [structFieldsLoop]
  | cons hd tl ih =>
    obtain ⟨sf, fv⟩ := hd
    rw [structFieldsLoop_cons] at h
    cases hs : fieldStep st sf fv fl tag vis with
    | error e => simp [hs] at h
    | ok c =>
      simp only [hs] at h
      have := ih (acc ++ c) h
      rw [this, fieldStep_ok st sf fv fl tag vis c hs]
      simp

/-- A successful call on a record went through the loop, with the map received
or an empty one. -/
theorem structFields_ok_loop (ty : String) (fs : List (StructField × Value)) (fl : Flag)
    (tag : String) (visited : Option Visited) (r : List structField)
    (h : structFields (Value.struct ty fs) fl tag visited = Except.ok r) :
    structFieldsLoop (GoType.struct ty) fs fl tag (visited.getD []) [] = Except.ok r := by
  cases visited with
  | none => simpa [structFields, visitedGet] using h
  | some vis =>
    by_cases hv : visitedGet vis (GoType.struct ty) = true
    · simp [structFields, hv] at h
    · simpa [structFields, hv] using h

/-- C10: a successful `structFields` returns the concatenation, over the fields
of the record in declaration order, of the contribution of each field. -/
theorem structFields_concat (ty : String) (fs : List (StructField × Value)) (fl : Flag)
    (tag : String) (visited : Option Visited) (r : List structField)
    (h : structFields (Value.struct ty fs) fl tag visited = Except.ok r) :
    r = (fs.map (contribution fl tag (visited.getD []))).flatten := by
  have := structFieldsLoop_ok _ fs fl tag _ [] r (structFields_ok_loop ty fs fl tag visited r h)
  simpa using this

/-! ## Facts about the map -/

theorem mapGet_nil (k : String) : mapGet [] k = none := by
  simp [mapGet]

theorem mapGet_mapSet_same (vars : GoMap) (k : String) (a : GoAny) :
    mapGet (mapSet vars k a) k = a := by
  induction vars with
  | nil => simp [mapSet, mapGet, List.lookup]
  | cons hd tl ih =>
    obtain ⟨k1, b⟩ := hd
    by_cases h : k1 = k
    · subst h
      simp [mapSet, mapGet, List.lookup]
    · have h2 : (k == k1) = false := by simpa using fun h3 => h h3.symm
      simp only [mapSet, h, if_false]
      simp only [mapGet, List.lookup, h2] at ih ⊢
      exact ih

theorem mapGet_mapSet_other (vars : GoMap) (k k2 : String) (a : GoAny) (hne : k2 ≠ k) :
    mapGet (mapSet vars k a) k2 = mapGet vars k2 := by
  induction vars with
  | nil =>
    have h2 : (k2 == k) = false := by simpa using hne
    simp [mapSet, mapGet, List.lookup, h2]
  | cons hd tl ih =>
    obtain ⟨k1, b⟩ := hd
    by_cases h : k1 = k
    · subst h
      have h2 : (k2 == k1) = false := by simpa using hne
      simp [mapSet, mapGet, List.lookup, h2]
    · simp only [mapSet, h, if_false]
      by_cases h3 : k2 = k1
      · subst h3
        simp [mapGet, List.lookup]
      · have h4 : (k2 == k1) = false := by simpa using h3
        simp only [mapGet, List.lookup, h4] at ih ⊢
        exact ih

theorem mem_mapKeys_mapSet (vars : GoMap) (k k2 : String) (a : GoAny) :
    k2 ∈ mapKeys (mapSet vars k a) ↔ k2 = k ∨ k2 ∈ mapKeys vars := by
  induction vars with
  | nil => simp [mapSet, mapKeys]
  | cons hd tl ih =>
    obtain ⟨k1, b⟩ := hd
    by_cases h : k1 = k
    · subst h
      simp [mapSet, mapKeys]
    · simp only [mapSet, h, if_false]
      simp only [mapKeys, List.map_cons, List.mem_cons] at ih ⊢
      rw [ih]
      tauto

/-- Assigning to a key that is absent adds one entry. -/
theorem mapLen_mapSet_fresh (vars : GoMap) (k : String) (a : GoAny)
    (h : k ∉ mapKeys vars) : mapLen (mapSet vars k a) = mapLen vars + 1 := by
  induction vars with
  | nil => simp [mapSet, mapLen]
  | cons hd tl ih =>
    obtain ⟨k1, b⟩ := hd
    have h1 : k1 ≠ k := by
      intro h2
      exact h (by simp [mapKeys, h2])
    have h3 : k ∉ mapKeys tl := by
      intro h2
      exact h (by simp only [mapKeys, List.map_cons, List.mem_cons]; exact Or.inr h2)
    simp only [mapSet, h1, if_false]
    simp only [mapLen, List.length_cons] at ih ⊢
    rw [ih h3]

/-- A key with a non-nil value is a key of the map. -/
theorem mem_mapKeys_of_isSome (vars : GoMap) (k : String)
    (h : (mapGet vars k).isSome = true) : k ∈ mapKeys vars := by
  induction vars with
  | nil => simp [mapGet] at h
  | cons hd tl ih =>
    obtain ⟨k1, b⟩ := hd
    by_cases h3 : k = k1
    · simp [mapKeys, h3]
    · have h4 : (k == k1) = false := by simpa using h3
      simp only [mapGet, List.lookup, h4] at ih h
      simp only [mapKeys, List.map_cons, List.mem_cons]
      exact Or.inr (ih h)

/-! ## Facts about the fold -/

/-- One iteration of the loop of `StructToMap` that does not return. -/
theorem foldFields_cons_ok (d : structField) (rest : List structField) (vars : GoMap)
    (o : Outcome GoMap) (h : foldFields (d :: rest) vars = o)
    (ho : o.status = some none) :
    tagOf d ≠ "" ∧ mapGet vars (tagOf d) = none ∧
      d.value.Interface = some d.value.val.Interface ∧
      foldFields rest (mapSet vars (tagOf d) d.value.val.Interface) = o := by
  subst h
  simp only [foldFields] at ho ⊢
  by_cases ht : d.Tag.Get TagName = ""
  · simp [ht, Outcome.status] at ho
  · simp only [ht, if_false] at ho ⊢
    cases hg : mapGet vars (d.Tag.Get TagName) with
    | some x => simp [hg, Outcome.status] at ho
    | none =>
      simp only [hg, Option.isSome_none, Bool.false_eq_true, if_false] at ho ⊢
      by_cases hro : (d.value.flag.stickyRO || d.value.flag.embedRO) = true
      · simp [RValue.Interface, hro, Outcome.status] at ho
      · simp only [RValue.Interface, hro, if_false] at ho ⊢
        simp [tagOf, ht, hg]

/-- The keys of the map returned by a successful fold are the keys present at
the start and the tags of the folded descriptors, which are non-empty. -/
theorem foldFields_keys (fields : List structField) (vars m : GoMap)
    (h : foldFields fields vars = Outcome.ret (some m) none) :
    (∀ k, k ∈ mapKeys m ↔ k ∈ mapKeys vars ∨ k ∈ fields.map tagOf) ∧
      ∀ d ∈ fields, tagOf d ≠ "" := by
  induction fields generalizing vars with
  | nil =>
    simp only [foldFields, Outcome.ret.injEq, Option.some.injEq, and_true] at h
    subst h
    simp
  | cons d rest ih =>
    obtain ⟨ht, _, _, hrest⟩ := foldFields_cons_ok d rest vars _ h rfl
    obtain ⟨ih1, ih2⟩ := ih _ hrest
    refine ⟨fun k => ?_, ?_⟩
    · rw [ih1 k, mem_mapKeys_mapSet]
      simp only [List.map_cons, List.mem_cons]
      tauto
    · intro d2 hd2
      rcases List.mem_cons.1 hd2 with rfl | hd2
      · exact ht
      · exact ih2 d2 hd2

/-- When the folded tags are pairwise distinct, the map returned by a
successful fold binds the tag of each descriptor to its runtime value and
leaves the other keys as they were. -/
theorem foldFields_values (fields : List structField) (vars m : GoMap)
    (h : foldFields fields vars = Outcome.ret (some m) none)
    (hnd : (fields.map tagOf).Nodup) :
    (∀ d ∈ fields, mapGet m (tagOf d) = d.value.val.Interface) ∧
      ∀ k, k ∉ fields.map tagOf → mapGet m k = mapGet vars k := by
  induction fields generalizing vars with
  | nil =>
    simp only [foldFields, Outcome.ret.injEq, Option.some.injEq, and_true] at h
    subst h
    simp
  | cons d rest ih =>
    obtain ⟨_, _, _, hrest⟩ := foldFields_cons_ok d rest vars _ h rfl
    simp only [List.map_cons, List.nodup_cons] at hnd
    obtain ⟨ih1, ih2⟩ := ih _ hrest hnd.2
    refine ⟨?_, ?_⟩
    · intro d2 hd2
      rcases List.mem_cons.1 hd2 with rfl | hd2
      · rw [ih2 _ hnd.1, mapGet_mapSet_same]
      · exact ih1 d2 hd2
    · intro k hk
      simp only [List.map_cons, List.mem_cons, not_or] at hk
      rw [ih2 k hk.2, mapGet_mapSet_other _ _ _ _ hk.1]

/-! ## Facts proved along the nesting of records -/

/-- A loop that succeeds on a non-empty field list: the first iteration
succeeded, and so did the loop on the other fields. -/
theorem structFieldsLoop_cons_ok (st : GoType) (sf : StructField) (fv : Value)
    (rest : List (StructField × Value)) (fl : Flag) (tag : String) (vis : Visited)
    (acc r : List structField)
    (h : structFieldsLoop st ((sf, fv) :: rest) fl tag vis acc = Except.ok r) :
    ∃ c r2, fieldStep st sf fv fl tag vis = Except.ok c ∧
      structFieldsLoop st rest fl tag vis [] = Except.ok r2 ∧ r = acc ++ c ++ r2 := by
  rw [structFieldsLoop_cons] at h
  cases hs : fieldStep st sf fv fl tag vis with
  | error e => simp [hs] at h
  | ok c =>
    simp only [hs] at h
    rw [structFieldsLoop_acc] at h
    cases hl : structFieldsLoop st rest fl tag vis [] with
    | error e => simp [hl, prepend] at h
    | ok r2 =>
      simp only [hl, prepend, Except.ok.injEq] at h
      exact ⟨c, r2, rfl, rfl, h.symm⟩

/-- The ways in which an iteration of the loop succeeds. -/
theorem fieldStep_ok_cases (st : GoType) (sf : StructField) (fv : Value) (fl : Flag)
    (tag : String) (vis : Visited) (c : List structField)
    (h : fieldStep st sf fv fl tag vis = Except.ok c) :
    (sf.Tag.Get tag ≠ "" ∧ c = [descriptor fl sf fv]) ∨
    (sf.Tag.Get tag = "" ∧
      ((∃ ty fs, fv = Value.struct ty fs ∧
          structFields fv (fl.field sf) tag (some vis) = Except.ok c) ∨
       (∃ ty fs, fv = Value.ptrTo (Value.struct ty fs) ∧
          structFields (Value.struct ty fs) (fl.field sf).elem tag (some vis) = Except.ok c) ∨
       (c = [] ∧ (∀ ty fs, fv ≠ Value.struct ty fs) ∧
          ∀ ty fs, fv ≠ Value.ptrTo (Value.struct ty fs)))) := by
  by_cases ht : sf.Tag.Get tag = ""
  · refine Or.inr ⟨ht, ?_⟩
    cases fv with
    | other ty k n elems => simp_all [fieldStep]
    | iface ty dyn => simp_all [fieldStep]
    | nilPtr elem =>
      by_cases hk : elem.Kind = Kind.Struct <;> simp_all [fieldStep]
    | ptrTo target =>
      by_cases hk : target.Type.Kind = Kind.Struct
      · obtain ⟨ty, fs, rfl⟩ := (kind_struct_iff target).1 hk
        simp only [fieldStep, ht, hk] at h
        cases hs : structFields (Value.struct ty fs) (fl.field sf).elem tag (some vis) with
        | error e => simp [hs] at h
        | ok inner =>
          simp [hs] at h
          subst h
          exact Or.inr (Or.inl ⟨ty, fs, rfl, hs⟩)
      · have : ∀ ty fs, target ≠ Value.struct ty fs := by
          intro ty fs h2
          exact hk ((kind_struct_iff target).2 ⟨ty, fs, h2⟩)
        simp_all [fieldStep]
    | struct ty fs =>
      simp only [fieldStep, ht] at h
      cases hs : structFields (Value.struct ty fs) (fl.field sf) tag (some vis) with
      | error e => simp [hs] at h
      | ok inner =>
        simp [hs] at h
        subst h
        exact Or.inl ⟨ty, fs, rfl, rfl⟩
  · simp_all [fieldStep]

theorem reachableTaggedFields_tagged (tag : String) (sf : StructField) (fv : Value)
    (rest : List (StructField × Value)) (ht : sf.Tag.Get tag ≠ "") :
    reachableTaggedFields tag ((sf, fv) :: rest) = (sf, fv) :: reachableTaggedFields tag rest := by
  cases fv <;> simp [reachableTaggedFields, ht]

theorem reachableTaggedFields_struct (tag : String) (sf : StructField) (ty : String)
    (fs rest : List (StructField × Value)) (ht : sf.Tag.Get tag = "") :
    reachableTaggedFields tag ((sf, Value.struct ty fs) :: rest)
      = reachableTaggedFields tag fs ++ reachableTaggedFields tag rest := by
  simp [reachableTaggedFields, ht, reachableTagged]

theorem reachableTaggedFields_ptrTo (tag : String) (sf : StructField) (target : Value)
    (rest : List (StructField × Value)) (ht : sf.Tag.Get tag = "") :
    reachableTaggedFields tag ((sf, Value.ptrTo target) :: rest)
      = reachableTagged tag target ++ reachableTaggedFields tag rest := by
  simp [reachableTaggedFields, ht]

theorem reachableTaggedFields_skip (tag : String) (sf : StructField) (fv : Value)
    (rest : List (StructField × Value)) (ht : sf.Tag.Get tag = "")
    (h1 : ∀ ty fs, fv ≠ Value.struct ty fs) (h2 : ∀ target, fv ≠ Value.ptrTo target) :
    reachableTaggedFields tag ((sf, fv) :: rest) = reachableTaggedFields tag rest := by
  cases fv with
  | struct ty fs => exact absurd rfl (h1 ty fs)
  | ptrTo target => exact absurd rfl (h2 target)
  | _ => simp [reachableTaggedFields, ht]

theorem reachableTagged_not_struct (tag : String) (v : Value)
    (h1 : ∀ ty fs, v ≠ Value.struct ty fs) : reachableTagged tag v = [] := by
  cases v with
  | struct ty fs => exact absurd rfl (h1 ty fs)
  | _ => simp [reachableTagged]

/-- The descriptors returned by `structFields` stand, in order, for the tagged
fields reachable from the record. -/
theorem structFields_reachable (tag : String) (v : Value) :
    ∀ (fl : Flag) (visited : Option Visited) (r : List structField),
      structFields v fl tag visited = Except.ok r →
      r.map structField.source = reachableTagged tag v := by
  refine Value.induction
    (P := fun v => ∀ (fl : Flag) (visited : Option Visited) (r : List structField),
      structFields v fl tag visited = Except.ok r →
      r.map structField.source = reachableTagged tag v)
    (Q := fun fs => ∀ (st : GoType) (fl : Flag) (vis : Visited) (r : List structField),
      structFieldsLoop st fs fl tag vis [] = Except.ok r →
      r.map structField.source = reachableTaggedFields tag fs)
    ?_ ?_ ?_ ?_ ?_ ?_ ?_ v
  · intro ty k n elems fl visited r h
    simp [structFields] at h
  · intro ty dyn fl visited r h
    simp [structFields] at h
  · intro elem fl visited r h
    simp [structFields] at h
  · intro target _ fl visited r h
    simp [structFields] at h
  · intro ty fs ih fl visited r h
    rw [reachableTagged]
    exact ih _ fl _ r (structFields_ok_loop ty fs fl tag visited r h)
  · intro st fl vis r h
    simp only [structFieldsLoop, Except.ok.injEq] at h
    subst h
    simp [reachableTaggedFields]
  · intro sf fv rest ihv iht ihrest st fl vis r h
    obtain ⟨c, r2, hc, hr2, hr⟩ := structFieldsLoop_cons_ok st sf fv rest fl tag vis [] r h
    have h2 := ihrest st fl vis r2 hr2
    rw [hr]
    rcases fieldStep_ok_cases st sf fv fl tag vis c hc with ⟨ht, hceq⟩ | ⟨ht, hcases⟩
    · rw [hceq, reachableTaggedFields_tagged tag sf fv rest ht]
      simp [h2, structField.source, descriptor]
    · rcases hcases with ⟨ty, fs, hfv, hs⟩ | ⟨ty, fs, hfv, hs⟩ | ⟨hceq, hn1, hn2⟩
      · have h3 := ihv _ _ _ hs
        rw [hfv] at h3 ⊢
        rw [reachableTaggedFields_struct tag sf ty fs rest ht]
        simp [h2, h3, reachableTagged]
      · have h3 := iht _ hfv _ _ _ hs
        rw [hfv, reachableTaggedFields_ptrTo tag sf _ rest ht]
        simp [h2, h3]
      · rw [hceq]
        cases fv with
        | struct ty fs => exact absurd rfl (hn1 ty fs)
        | ptrTo target =>
          rw [reachableTaggedFields_ptrTo tag sf _ rest ht,
            reachableTagged_not_struct tag target (fun ty fs h => hn2 ty fs (by rw [h]))]
          simp [h2]
        | _ =>
          rw [reachableTaggedFields_skip tag sf _ rest ht (by simp) (by simp)]
          simp [h2]

/-- A successful `StructToMap` on a pointer to a record: `structFields`
succeeded on the record and the fold of its result returned the map. -/
theorem StructToMap_ok (target : Value) (m : GoMap)
    (h : StructToMap (some (Value.ptrTo target)) = Outcome.ret (some m) none) :
    ∃ fields, structFields target Flag.rw TagName none = Except.ok fields ∧
      foldFields fields [] = Outcome.ret (some m) none := by
  simp only [StructToMap, Flag.elem] at h
  cases hs : structFields target Flag.rw TagName none with
  | error e => simp [hs] at h
  | ok fields => exact ⟨fields, rfl, by simpa [hs] using h⟩

/-- C1: when `StructToMap` succeeds on a non-nil pointer to a record, the keys
of the returned map are exactly the non-empty tag strings carried by the fields
reachable through untagged record and non-nil pointer-to-record fields, and,
every tag being used once, each key is bound to the runtime value of the field
carrying it. -/
theorem StructToMap_keys_values (ty : String) (fs : List (StructField × Value)) (m : GoMap)
    (h : StructToMap (some (Value.ptrTo (Value.struct ty fs))) = Outcome.ret (some m) none) :
    (∀ k, k ∈ mapKeys m ↔
      k ≠ "" ∧ ∃ f ∈ reachableTagged TagName (Value.struct ty fs), f.1.Tag.Get TagName = k) ∧
    (((reachableTagged TagName (Value.struct ty fs)).map fun f => f.1.Tag.Get TagName).Nodup →
      ∀ f ∈ reachableTagged TagName (Value.struct ty fs),
        mapGet m (f.1.Tag.Get TagName) = f.2.Interface) := by
  obtain ⟨fields, hs, hf⟩ := StructToMap_ok _ m h
  have hr := structFields_reachable TagName _ _ _ _ hs
  obtain ⟨hk, hne⟩ := foldFields_keys fields [] m hf
  have htags : fields.map tagOf
      = (reachableTagged TagName (Value.struct ty fs)).map fun f => f.1.Tag.Get TagName := by
    rw [← hr, List.map_map]
    rfl
  refine ⟨fun k => ?_, fun hnd f hfm => ?_⟩
  · rw [hk k, htags]
    simp only [mapKeys, List.map_nil, List.not_mem_nil, false_or, List.mem_map]
    constructor
    · rintro ⟨f, hfm, rfl⟩
      refine ⟨?_, f, hfm, rfl⟩
      rw [← hr] at hfm
      obtain ⟨d, hd, rfl⟩ := List.mem_map.1 hfm
      exact hne d hd
    · rintro ⟨_, f, hfm, rfl⟩
      exact ⟨f, hfm, rfl⟩
  · rw [← htags] at hnd
    rw [← hr] at hfm
    obtain ⟨d, hd, rfl⟩ := List.mem_map.1 hfm
    exact (foldFields_values fields [] m hf hnd).1 d hd

/-- Every reachable tagged field carries a non-empty tag. -/
theorem reachableTagged_tagged (tag : String) (v : Value) :
    ∀ f ∈ reachableTagged tag v, f.1.Tag.Get tag ≠ "" := by
  refine Value.induction
    (P := fun v => ∀ f ∈ reachableTagged tag v, f.1.Tag.Get tag ≠ "")
    (Q := fun fs => ∀ f ∈ reachableTaggedFields tag fs, f.1.Tag.Get tag ≠ "")
    ?_ ?_ ?_ ?_ ?_ ?_ ?_ v
  · intro ty k n elems f hf
    simp [reachableTagged] at hf
  · intro ty dyn f hf
    simp [reachableTagged] at hf
  · intro elem f hf
    simp [reachableTagged] at hf
  · intro target _ f hf
    simp [reachableTagged] at hf
  · intro ty fs ih f hf
    rw [reachableTagged] at hf
    exact ih f hf
  · intro f hf
    simp [reachableTaggedFields] at hf
  · intro sf fv rest ihv iht ihrest f hf
    by_cases ht : sf.Tag.Get tag = ""
    · cases fv with
      | struct ty fs =>
        rw [reachableTaggedFields_struct tag sf ty fs rest ht] at hf
        rcases List.mem_append.1 hf with h | h
        · exact ihv f (by rw [reachableTagged]; exact h)
        · exact ihrest f h
      | ptrTo target =>
        rw [reachableTaggedFields_ptrTo tag sf target rest ht] at hf
        rcases List.mem_append.1 hf with h | h
        · exact iht target rfl f h
        · exact ihrest f h
      | _ =>
        rw [reachableTaggedFields_skip tag sf _ rest ht (by simp) (by simp)] at hf
        exact ihrest f hf
    · rw [reachableTaggedFields_tagged tag sf fv rest ht] at hf
      rcases List.mem_cons.1 hf with h | h
      · rw [h]
        exact ht
      · exact ihrest f h

/-- Every descriptor returned by `structFields` carries a non-empty tag. -/
theorem structFields_tagged (tag : String) (v : Value) (fl : Flag)
    (visited : Option Visited) (r : List structField)
    (h : structFields v fl tag visited = Except.ok r) :
    ∀ d ∈ r, d.Tag.Get tag ≠ "" := by
  intro d hd
  have hr := structFields_reachable tag v fl visited r h
  have hm : d.source ∈ reachableTagged tag v := by
    rw [← hr]
    exact List.mem_map_of_mem _ hd
  exact reachableTagged_tagged tag v _ hm

/-- The ways in which an iteration of the loop fails. -/
theorem fieldStep_error_cases (st : GoType) (sf : StructField) (fv : Value) (fl : Flag)
    (tag : String) (vis : Visited) (e : Error)
    (h : fieldStep st sf fv fl tag vis = Except.error e) :
    sf.Tag.Get tag = "" ∧
    ((∃ elem, fv = Value.nilPtr elem ∧ elem.Kind = Kind.Struct ∧
        e = Error.NilNestedReference st) ∨
     (∃ ty fs e2, fv = Value.ptrTo (Value.struct ty fs) ∧
        structFields (Value.struct ty fs) (fl.field sf).elem tag (some vis) = Except.error e2 ∧
        e = Error.Wrapped sf.Name e2) ∨
     (∃ ty fs e2, fv = Value.struct ty fs ∧
        structFields (Value.struct ty fs) (fl.field sf) tag (some vis) = Except.error e2 ∧
        e = Error.Wrapped sf.Name e2)) := by
  by_cases ht : sf.Tag.Get tag = ""
  · refine ⟨ht, ?_⟩
    cases fv with
    | other ty k n elems => simp [fieldStep, ht] at h
    | iface ty dyn => simp [fieldStep, ht] at h
    | nilPtr elem =>
      by_cases hk : elem.Kind = Kind.Struct
      · simp [fieldStep, ht, hk] at h
        exact Or.inl ⟨elem, rfl, hk, h.symm⟩
      · simp [fieldStep, ht, hk] at h
    | ptrTo target =>
      by_cases hk : target.Type.Kind = Kind.Struct
      · obtain ⟨ty, fs, rfl⟩ := (kind_struct_iff target).1 hk
        simp only [fieldStep, ht, hk] at h
        cases hs : structFields (Value.struct ty fs) (fl.field sf).elem tag (some vis) with
        | error e2 =>
          simp [hs] at h
          exact Or.inr (Or.inl ⟨ty, fs, e2, rfl, hs, h.symm⟩)
        | ok inner => simp [hs] at h
      · simp [fieldStep, ht, hk] at h
    | struct ty fs =>
      simp only [fieldStep, ht] at h
      cases hs : structFields (Value.struct ty fs) (fl.field sf) tag (some vis) with
      | error e2 =>
        simp [hs] at h
        exact Or.inr (Or.inr ⟨ty, fs, e2, rfl, hs, h.symm⟩)
      | ok inner => simp [hs] at h
  · simp [fieldStep, ht] at h

/-- A loop that fails on a non-empty field list: the first iteration failed
with that error, or it succeeded and the loop on the other fields failed. -/
theorem structFieldsLoop_cons_error (st : GoType) (sf : StructField) (fv : Value)
    (rest : List (StructField × Value)) (fl : Flag) (tag : String) (vis : Visited)
    (acc : List structField) (e : Error)
    (h : structFieldsLoop st ((sf, fv) :: rest) fl tag vis acc = Except.error e) :
    fieldStep st sf fv fl tag vis = Except.error e ∨
      ∃ c, fieldStep st sf fv fl tag vis = Except.ok c ∧
        structFieldsLoop st rest fl tag vis [] = Except.error e := by
  rw [structFieldsLoop_cons] at h
  cases hs : fieldStep st sf fv fl tag vis with
  | error e2 =>
    simp [hs] at h
    exact Or.inl (by rw [h])
  | ok c =>
    simp only [hs] at h
    rw [structFieldsLoop_acc] at h
    cases hl : structFieldsLoop st rest fl tag vis [] with
    | error e2 =>
      simp [hl, prepend] at h
      exact Or.inr ⟨c, rfl, by rw [h]⟩
    | ok r2 => simp [hl, prepend] at h

/-- With an empty `visited`, every error of `structFields` on a record is, at
its root, a `NilNestedReference`. -/
theorem structFields_error_root (tag : String) (v : Value) :
    ∀ (fl : Flag) (e : Error), structFields v fl tag (some []) = Except.error e →
      v.Type.Kind = Kind.Struct → ∃ t, e.root = Error.NilNestedReference t := by
  refine Value.induction
    (P := fun v => ∀ (fl : Flag) (e : Error),
      structFields v fl tag (some []) = Except.error e →
      v.Type.Kind = Kind.Struct → ∃ t, e.root = Error.NilNestedReference t)
    (Q := fun fs => ∀ (st : GoType) (fl : Flag) (e : Error),
      structFieldsLoop st fs fl tag [] [] = Except.error e →
      ∃ t, e.root = Error.NilNestedReference t)
    ?_ ?_ ?_ ?_ ?_ ?_ ?_ v
  · intro ty k n elems fl e _ hk
    cases k <;> simp [Value.Type, GoType.Kind, OtherKind.toKind] at hk
  · intro ty dyn fl e _ hk
    simp [Value.Type, GoType.Kind] at hk
  · intro elem fl e _ hk
    simp [Value.Type, GoType.Kind] at hk
  · intro target _ fl e _ hk
    simp [Value.Type, GoType.Kind] at hk
  · intro ty fs ih fl e h _
    rw [structFields_struct ty fs fl tag [] (by simp [visitedGet])] at h
    exact ih _ fl e h
  · intro st fl e h
    simp [structFieldsLoop] at h
  · intro sf fv rest ihv iht ihrest st fl e h
    rcases structFieldsLoop_cons_error st sf fv rest fl tag [] [] e h with hs | ⟨c, _, hl⟩
    · obtain ⟨_, hcases⟩ := fieldStep_error_cases st sf fv fl tag [] e hs
      rcases hcases with ⟨elem, _, _, he⟩ | ⟨ty, fs, e2, hfv, hs2, he⟩ | ⟨ty, fs, e2, hfv, hs2, he⟩
      · exact ⟨st, by rw [he]; rfl⟩
      · obtain ⟨t, ht⟩ := iht _ hfv _ e2 hs2 rfl
        exact ⟨t, by rw [he]; simpa [Error.root] using ht⟩
      · rw [hfv] at ihv
        obtain ⟨t, ht⟩ := ihv _ e2 hs2 rfl
        exact ⟨t, by rw [he]; simpa [Error.root] using ht⟩
    · exact ihrest st fl e hl

/-- When every folded descriptor is tagged and readable with a non-nil runtime
value, a tag that occurs twice, or that is already bound to a non-nil value,
makes the fold fail with `DuplicateTag`, naming such a tag. -/
theorem foldFields_duplicate (fields : List structField) (vars : GoMap)
    (htag : ∀ d ∈ fields, tagOf d ≠ "")
    (hval : ∀ d ∈ fields, ∃ x, d.value.Interface = some (some x))
    (hdup : ¬ (fields.map tagOf).Nodup ∨ ∃ d ∈ fields, (mapGet vars (tagOf d)).isSome = true) :
    ∃ t n, foldFields fields vars = Outcome.ret none (some (Error.DuplicateTag t n)) ∧
      t ∈ fields.map tagOf ∧
      ((mapGet vars t).isSome = true ∨ 2 ≤ (fields.map tagOf).count t) := by
  induction fields generalizing vars with
  | nil => simp at hdup
  | cons d rest ih =>
    have ht : d.Tag.Get TagName ≠ "" := htag d (List.mem_cons_self _ _)
    by_cases hg : (mapGet vars (d.Tag.Get TagName)).isSome = true
    · refine ⟨tagOf d, d.Name, ?_, by simp, Or.inl hg⟩
      simp [foldFields, ht, hg, tagOf]
    · obtain ⟨x, hx⟩ := hval d (List.mem_cons_self _ _)
      have hstep : foldFields (d :: rest) vars
          = foldFields rest (mapSet vars (tagOf d) (some x)) := by
        simp [foldFields, ht, hg, hx, tagOf]
      have hdup2 : ¬ (rest.map tagOf).Nodup ∨
          ∃ d2 ∈ rest, (mapGet (mapSet vars (tagOf d) (some x)) (tagOf d2)).isSome = true := by
        rcases hdup with h | ⟨d2, hd2, h2⟩
        · simp only [List.map_cons, List.nodup_cons, not_and_or, not_not] at h
          rcases h with h | h
          · obtain ⟨d2, hd2, he⟩ := List.mem_map.1 h
            exact Or.inr ⟨d2, hd2, by rw [he, mapGet_mapSet_same]; rfl⟩
          · exact Or.inl h
        · rcases List.mem_cons.1 hd2 with rfl | hd2
          · exact absurd h2 hg
          · refine Or.inr ⟨d2, hd2, ?_⟩
            by_cases he : tagOf d2 = tagOf d
            · rw [he, mapGet_mapSet_same]; rfl
            · rw [mapGet_mapSet_other _ _ _ _ he]; exact h2
      obtain ⟨t, n, hf, hmem, hcount⟩ := ih _ (fun d2 hd2 => htag d2 (List.mem_cons_of_mem _ hd2))
        (fun d2 hd2 => hval d2 (List.mem_cons_of_mem _ hd2)) hdup2
      refine ⟨t, n, by rw [hstep, hf], by simp [hmem], ?_⟩
      by_cases he : t = tagOf d
      · refine Or.inr ?_
        have h1 : 1 ≤ (rest.map tagOf).count t := List.count_pos_iff.2 hmem
        rw [List.map_cons, List.count_cons]
        simp only [he, beq_self_eq_true, if_true] at h1 ⊢
        omega
      · rw [mapGet_mapSet_other _ _ _ _ he] at hcount
        rcases hcount with h | h
        · exact Or.inl h
        · refine Or.inr ?_
          rw [List.map_cons, List.count_cons]
          omega

/-- The fold ends in the same way on two lists of descriptors of the same
shape, from two maps with the same non-nil keys. -/
theorem foldFields_status_congr (l1 l2 : List structField) (h : List.Forall₂ sameShape l1 l2) :
    ∀ (v1 v2 : GoMap), (∀ k, (mapGet v1 k).isSome = (mapGet v2 k).isSome) →
      (foldFields l1 v1).status = (foldFields l2 v2).status := by
  induction h with
  | nil => intro v1 v2 _; simp [foldFields, Outcome.status]
  | cons hd _ ih =>
    rename_i d1 d2 r1 r2 _
    intro v1 v2 hv
    obtain ⟨hsf, hfl, hi⟩ := hd
    have htag : d1.Tag.Get TagName = d2.Tag.Get TagName := by rw [hsf]
    have hname : d1.Name = d2.Name := by rw [hsf]
    by_cases ht : d1.Tag.Get TagName = ""
    · have ht2 : d2.Tag.Get TagName = "" := by rw [← htag]; exact ht
      simp [foldFields, ht, ht2, Outcome.status, hname]
    · have ht2 : d2.Tag.Get TagName ≠ "" := by rw [← htag]; exact ht
      by_cases hg : (mapGet v1 (d1.Tag.Get TagName)).isSome = true
      · have hg2 : (mapGet v2 (d2.Tag.Get TagName)).isSome = true := by
          rw [← htag, ← hv]; exact hg
        simpa [foldFields, ht, ht2, hg, hg2, Outcome.status, hname] using htag
      · have hg2 : ¬ (mapGet v2 (d2.Tag.Get TagName)).isSome = true := by
          rw [← htag, ← hv]; exact hg
        by_cases hro : (d1.value.flag.stickyRO || d1.value.flag.embedRO) = true
        · have hro2 : (d2.value.flag.stickyRO || d2.value.flag.embedRO) = true := by
            rw [← hfl]; exact hro
          simp [foldFields, ht, ht2, hg, hg2, RValue.Interface, hro, hro2, Outcome.status]
        · have hro2 : ¬ (d2.value.flag.stickyRO || d2.value.flag.embedRO) = true := by
            rw [← hfl]; exact hro
          have e1 : foldFields (d1 :: r1) v1
              = foldFields r1 (mapSet v1 (d1.Tag.Get TagName) d1.value.val.Interface) := by
            simp [foldFields, ht, hg, RValue.Interface, hro]
          have e2 : foldFields (d2 :: r2) v2
              = foldFields r2 (mapSet v2 (d2.Tag.Get TagName) d2.value.val.Interface) := by
            simp [foldFields, ht2, hg2, RValue.Interface, hro2]
          rw [e1, e2]
          apply ih
          intro k
          rw [← htag]
          by_cases hk : k = d1.Tag.Get TagName
          · rw [hk, mapGet_mapSet_same, mapGet_mapSet_same]; exact hi
          · rw [mapGet_mapSet_other _ _ _ _ hk, mapGet_mapSet_other _ _ _ _ hk]; exact hv k

/-- A successful fold does not touch the keys bound to a non-nil value. -/
theorem foldFields_preserves (fields : List structField) (vars m : GoMap)
    (h : foldFields fields vars = Outcome.ret (some m) none) (k : String)
    (hk : (mapGet vars k).isSome = true) : mapGet m k = mapGet vars k := by
  induction fields generalizing vars with
  | nil =>
    simp only [foldFields, Outcome.ret.injEq, Option.some.injEq, and_true] at h
    rw [h]
  | cons d rest ih =>
    obtain ⟨_, hnone, _, hrest⟩ := foldFields_cons_ok d rest vars _ h rfl
    have hne : k ≠ tagOf d := by
      intro he
      rw [he, hnone] at hk
      simp at hk
    have := ih _ hrest (by rw [mapGet_mapSet_other _ _ _ _ hne]; exact hk)
    rw [this, mapGet_mapSet_other _ _ _ _ hne]

/-- A successful fold binds the tag of every descriptor whose runtime value is
not nil to that value. -/
theorem foldFields_binds (fields : List structField) (vars m : GoMap)
    (h : foldFields fields vars = Outcome.ret (some m) none) :
    ∀ d ∈ fields, d.value.val.Interface.isSome = true →
      mapGet m (tagOf d) = d.value.val.Interface := by
  induction fields generalizing vars with
  | nil => simp
  | cons d rest ih =>
    obtain ⟨_, _, _, hrest⟩ := foldFields_cons_ok d rest vars _ h rfl
    intro d2 hd2 hsome
    rcases List.mem_cons.1 hd2 with rfl | hd2
    · have := foldFields_preserves rest _ m hrest (tagOf d2)
        (by rw [mapGet_mapSet_same]; exact hsome)
      rw [this, mapGet_mapSet_same]
    · exact ih _ hrest d2 hd2 hsome

/-- Every descriptor has the shape of itself. -/
theorem sameShape_refl (l : List structField) : List.Forall₂ sameShape l l := by
  induction l with
  | nil => exact List.Forall₂.nil
  | cons d rest ih => exact List.Forall₂.cons ⟨rfl, rfl, rfl⟩ ih

/-- The loop on a field list in which one field is tagged: that field is
gathered as its descriptor between the results of the loop on the fields
before it and after it, whatever its value. -/
theorem structFieldsLoop_tagged_field (st : GoType) (pre post : List (StructField × Value))
    (sf : StructField) (fl : Flag) (tag : String) (vis : Visited)
    (ht : sf.Tag.Get tag ≠ "") :
    (∃ e, ∀ v, structFieldsLoop st (pre ++ (sf, v) :: post) fl tag vis [] = Except.error e) ∨
    (∃ a b, structFieldsLoop st pre fl tag vis [] = Except.ok a ∧
      structFieldsLoop st post fl tag vis [] = Except.ok b ∧
      ∀ v, structFieldsLoop st (pre ++ (sf, v) :: post) fl tag vis []
        = Except.ok (a ++ descriptor fl sf v :: b)) := by
  have hstep : ∀ v, fieldStep st sf v fl tag vis = Except.ok [descriptor fl sf v] := by
    intro v
    simp [fieldStep, ht]
  cases hp : structFieldsLoop st pre fl tag vis [] with
  | error e =>
    exact Or.inl ⟨e, fun v => by rw [structFieldsLoop_append, hp]⟩
  | ok a =>
    cases hq : structFieldsLoop st post fl tag vis [] with
    | error e =>
      refine Or.inl ⟨e, fun v => ?_⟩
      rw [structFieldsLoop_append, hp]
      simp only
      rw [structFieldsLoop_cons, hstep v]
      simp only
      rw [structFieldsLoop_acc, hq]
      rfl
    | ok b =>
      refine Or.inr ⟨a, b, rfl, rfl, fun v => ?_⟩
      rw [structFieldsLoop_append, hp]
      simp only
      rw [structFieldsLoop_cons, hstep v]
      simp only
      rw [structFieldsLoop_acc, hq]
      simp [prepend]

/-- The call of `structFields` on a record in which one field is tagged: the
result is an error that does not depend on the value of that field, or the
sequence in which the field stands as its descriptor at a fixed position. -/
theorem structFields_tagged_field (ty : String) (pre post : List (StructField × Value))
    (sf : StructField) (fl : Flag) (tag : String) (visited : Option Visited)
    (ht : sf.Tag.Get tag ≠ "") :
    (∃ e, ∀ v, structFields (Value.struct ty (pre ++ (sf, v) :: post)) fl tag visited
        = Except.error e) ∨
    (∃ a b, ∀ v, structFields (Value.struct ty (pre ++ (sf, v) :: post)) fl tag visited
        = Except.ok (a ++ descriptor fl sf v :: b)) := by
  by_cases hv : visitedGet (visited.getD []) (GoType.struct ty) = true
  · refine Or.inl ⟨Error.RecursiveType (GoType.struct ty), fun v => ?_⟩
    cases visited with
    | none => simp [visitedGet] at hv
    | some vis =>
      simp only [Option.getD_some] at hv
      simp [structFields, hv]
  · have hloop : ∀ v, structFields (Value.struct ty (pre ++ (sf, v) :: post)) fl tag visited
        = structFieldsLoop (GoType.struct ty) (pre ++ (sf, v) :: post) fl tag
            (visited.getD []) [] := by
      intro v
      cases visited with
      | none => simp [structFields, visitedGet]
      | some vis =>
        simp only [Option.getD_some] at hv
        simp [structFields, hv]
    rcases structFieldsLoop_tagged_field (GoType.struct ty) pre post sf fl tag
        (visited.getD []) ht with ⟨e, he⟩ | ⟨a, b, _, _, hab⟩
    · exact Or.inl ⟨e, fun v => by rw [hloop, he]⟩
    · exact Or.inr ⟨a, b, fun v => by rw [hloop, hab]⟩

/-- The way `StructToMap` ends does not depend on the value of a tagged field,
as long as it stays nil or stays non-nil as an `any`. -/
theorem StructToMap_tagged_field_status (ty : String) (pre post : List (StructField × Value))
    (sf : StructField) (v1 v2 : Value) (ht : sf.Tag.Get TagName ≠ "")
    (hi : v1.Interface.isSome = v2.Interface.isSome) :
    (StructToMap (some (Value.ptrTo (Value.struct ty (pre ++ (sf, v1) :: post))))).status
      = (StructToMap (some (Value.ptrTo (Value.struct ty (pre ++ (sf, v2) :: post))))).status := by
  simp only [StructToMap, Flag.elem]
  rcases structFields_tagged_field ty pre post sf Flag.rw TagName none ht with
    ⟨e, he⟩ | ⟨a, b, hab⟩
  · rw [he v1, he v2]
  · rw [hab v1, hab v2]
    simp only
    apply foldFields_status_congr
    · exact List.rel_append (sameShape_refl a)
        (List.Forall₂.cons ⟨rfl, rfl, hi⟩ (sameShape_refl b))
    · intro k
      rfl

/-- The loop fails on a field list that holds an untagged nil pointer to a
record. -/
theorem structFieldsLoop_nil_pointer (st : GoType) (pre post : List (StructField × Value))
    (sf : StructField) (elem : String) (fl : Flag) (tag : String) (vis : Visited)
    (ht : sf.Tag.Get tag = "") :
    ∃ e, structFieldsLoop st (pre ++ (sf, Value.nilPtr (GoType.struct elem)) :: post)
        fl tag vis [] = Except.error e ∧
      ∀ a, structFieldsLoop st pre fl tag vis [] = Except.ok a →
        e = Error.NilNestedReference st := by
  have hstep : fieldStep st sf (Value.nilPtr (GoType.struct elem)) fl tag vis
      = Except.error (Error.NilNestedReference st) := by
    simp [fieldStep, ht, GoType.Kind]
  rw [structFieldsLoop_append]
  cases hp : structFieldsLoop st pre fl tag vis [] with
  | error e => exact ⟨e, rfl, fun a ha => by simp at ha⟩
  | ok a =>
    refine ⟨Error.NilNestedReference st, ?_, fun _ _ => rfl⟩
    simp only
    rw [structFieldsLoop_cons, hstep]

/-! ## The claims -/

/-- Witness of C1, the scenario of the specification: `Outer{A, B}` with `A`
tagged `a` and `B` an untagged non-nil pointer to `Inner{C}` with `C` tagged
`c` converts to the map binding `a` to the value of `A` and `c` to the value
of `C`. -/
theorem StructToMap_keys_values_witness :
    StructToMap (some (Value.ptrTo scenarioOuter))
      = Outcome.ret (some [("a", some (intValue 1)), ("c", some (intValue 7))]) none ∧
    (∀ k, k ∈ mapKeys [("a", some (intValue 1)), ("c", some (intValue 7))] ↔
      k ≠ "" ∧ ∃ f ∈ reachableTagged TagName scenarioOuter, f.1.Tag.Get TagName = k) ∧
    (((reachableTagged TagName scenarioOuter).map fun f => f.1.Tag.Get TagName).Nodup →
      ∀ f ∈ reachableTagged TagName scenarioOuter,
        mapGet [("a", some (intValue 1)), ("c", some (intValue 7))] (f.1.Tag.Get TagName)
          = f.2.Interface) :=
  ⟨rfl, StructToMap_keys_values "Outer" _ _ rfl⟩

/-- Counterexample to C2: on a non-nil pointer to a record of the
self-referential type `T` with the pointer field `Next` of type `*T`, whose
cyclic field is nil, `StructToMap` fails with `NilNestedReference`, not with
`RecursiveType`; and when the cyclic field is tagged `next`, `StructToMap`
succeeds. -/
theorem self_reference_not_RecursiveType :
    StructToMap (some (Value.ptrTo selfNil))
      = Outcome.ret none (some (Error.NilNestedReference (GoType.struct "T"))) ∧
    StructToMap (some (Value.ptrTo selfTaggedNil))
      = Outcome.ret (some [("next", some (Value.nilPtr (GoType.struct "T")))]) none :=
  ⟨rfl, rfl⟩

/-- C2 (amended): for a record type that refers to itself through a pointer
field, on a non-nil pointer to a record of that type: when the cyclic field is
untagged and nil and the fields declared before it are collected without
error, `StructToMap` fails with `NilNestedReference` naming the record type;
when the cyclic field carries a non-empty tag, `StructToMap` ends in the same
way whether the field is populated or nil. -/
theorem self_reference_nil_or_tagged (ty : String) (pre post : List (StructField × Value))
    (sf : StructField) :
    (sf.Tag.Get TagName = "" →
      ∀ a, structFields (Value.struct ty pre) Flag.rw TagName none = Except.ok a →
        StructToMap (some (Value.ptrTo
            (Value.struct ty (pre ++ (sf, Value.nilPtr (GoType.struct ty)) :: post))))
          = Outcome.ret none (some (Error.NilNestedReference (GoType.struct ty)))) ∧
    (sf.Tag.Get TagName ≠ "" → ∀ target,
      (StructToMap (some (Value.ptrTo
          (Value.struct ty (pre ++ (sf, Value.ptrTo target) :: post))))).status
        = (StructToMap (some (Value.ptrTo
          (Value.struct ty (pre ++ (sf, Value.nilPtr (GoType.struct ty)) :: post))))).status) := by
  refine ⟨fun ht a ha => ?_, fun ht target => ?_⟩
  · rw [structFields_struct_nil] at ha
    obtain ⟨e, he, hroot⟩ := structFieldsLoop_nil_pointer (GoType.struct ty) pre post sf ty
      Flag.rw TagName [] ht
    simp only [StructToMap, Flag.elem]
    rw [structFields_struct_nil, he, hroot a ha]
  · exact StructToMap_tagged_field_status ty pre post sf _ _ ht rfl

/-- Witness of C2 (amended), on the type `T` with the pointer field `Next` of
type `*T`, untagged and then tagged `next`. -/
theorem self_reference_nil_or_tagged_witness :
    StructToMap (some (Value.ptrTo selfNil))
      = Outcome.ret none (some (Error.NilNestedReference (GoType.struct "T"))) ∧
    (StructToMap (some (Value.ptrTo (Value.struct "T"
        [(exportedField "Next" [("config", "next")], Value.ptrTo selfTaggedNil)])))).status
      = (StructToMap (some (Value.ptrTo selfTaggedNil))).status :=
  ⟨(self_reference_nil_or_tagged "T" [] [] (exportedField "Next" [])).1 rfl [] rfl,
   (self_reference_nil_or_tagged "T" [] [] (exportedField "Next" [("config", "next")])).2
     (by decide) selfTaggedNil⟩

/-- Counterexample to C3: in `Outer{A, B}` with `A` tagged `x` and the record
field `B` tagged `y`, the field `C` of `B` is tagged `x` as well, yet
`StructToMap` succeeds: the fields of a tagged record field are not visited. -/
theorem duplicate_in_tagged_record_accepted :
    StructToMap (some (Value.ptrTo shadowOuter))
      = Outcome.ret (some [("x", some (intValue 1)),
          ("y", some (Value.struct "Inner"
            [(exportedField "C" [("config", "x")], intValue 2)]))]) none :=
  rfl

/-- When the descriptors folded before `d2` are tagged and readable, and the tag
of `d2` is bound to a non-nil value at the start or carried by an earlier
descriptor whose runtime value is not nil, the fold fails with `DuplicateTag`,
at `d2` or before it, naming a tag that is bound to a non-nil value at the
start or carried by two descriptors. -/
theorem foldFields_collision (l : List structField) (d2 : structField)
    (post : List structField) (vars : GoMap)
    (htag : ∀ d ∈ l, tagOf d ≠ "") (htag2 : tagOf d2 ≠ "")
    (hread : ∀ d ∈ l, d.value.Interface ≠ none)
    (hcol : (mapGet vars (tagOf d2)).isSome = true ∨
      ∃ d1 ∈ l, tagOf d1 = tagOf d2 ∧ d1.value.val.Interface.isSome = true) :
    ∃ t n, foldFields (l ++ d2 :: post) vars
        = Outcome.ret none (some (Error.DuplicateTag t n)) ∧
      t ∈ (l ++ d2 :: post).map tagOf ∧
      ((mapGet vars t).isSome = true ∨ 2 ≤ ((l ++ d2 :: post).map tagOf).count t) := by
  induction l generalizing vars with
  | nil =>
    rcases hcol with h | ⟨d1, hd1, _⟩
    · refine ⟨tagOf d2, d2.Name, ?_, by simp, Or.inl h⟩
      have h2 : d2.Tag.Get TagName ≠ "" := htag2
      have h3 : (mapGet vars (d2.Tag.Get TagName)).isSome = true := h
      simp [foldFields, h2, h3, tagOf]
    · simp at hd1
  | cons d rest ih =>
    have ht : d.Tag.Get TagName ≠ "" := htag d (List.mem_cons_self _ _)
    by_cases hg : (mapGet vars (d.Tag.Get TagName)).isSome = true
    · refine ⟨tagOf d, d.Name, ?_, by simp, Or.inl hg⟩
      simp [foldFields, ht, hg, tagOf]
    · have hro : ¬ (d.value.flag.stickyRO || d.value.flag.embedRO) = true := by
        intro h
        exact hread d (List.mem_cons_self _ _) (by simp [RValue.Interface, h])
      have hstep : foldFields (d :: rest ++ d2 :: post) vars
          = foldFields (rest ++ d2 :: post) (mapSet vars (tagOf d) d.value.val.Interface) := by
        simp [foldFields, ht, hg, RValue.Interface, hro, tagOf]
      have hcol2 : (mapGet (mapSet vars (tagOf d) d.value.val.Interface) (tagOf d2)).isSome
            = true ∨
          ∃ d1 ∈ rest, tagOf d1 = tagOf d2 ∧ d1.value.val.Interface.isSome = true := by
        rcases hcol with h | ⟨d1, hd1, h1, h2⟩
        · have hne : tagOf d2 ≠ tagOf d := by
            intro he
            rw [he] at h
            exact hg h
          exact Or.inl (by rw [mapGet_mapSet_other _ _ _ _ hne]; exact h)
        · rcases List.mem_cons.1 hd1 with rfl | hd1
          · exact Or.inl (by rw [← h1, mapGet_mapSet_same]; exact h2)
          · exact Or.inr ⟨d1, hd1, h1, h2⟩
      obtain ⟨t, n, hf, hmem, hcount⟩ := ih _
        (fun d3 hd3 => htag d3 (List.mem_cons_of_mem _ hd3))
        (fun d3 hd3 => hread d3 (List.mem_cons_of_mem _ hd3)) hcol2
      have hmem2 : t ∈ (d :: rest ++ d2 :: post).map tagOf := by
        simp only [List.cons_append, List.map_cons, List.mem_cons]
        exact Or.inr hmem
      refine ⟨t, n, by rw [hstep, hf], hmem2, ?_⟩
      by_cases he : t = tagOf d
      · refine Or.inr ?_
        have h1 : 1 ≤ ((rest ++ d2 :: post).map tagOf).count t := List.count_pos_iff.2 hmem
        rw [List.cons_append, List.map_cons, List.count_cons]
        simp only [he, beq_self_eq_true, if_true] at h1 ⊢
        omega
      · rw [mapGet_mapSet_other _ _ _ _ he] at hcount
        rcases hcount with h | h
        · exact Or.inl h
        · refine Or.inr ?_
          rw [List.cons_append, List.map_cons, List.count_cons]
          omega

/-- C3 (amended): for a record passed by non-nil pointer on which
`structFields` succeeds: if two of the collected fields (the tagged fields
reached through untagged record and non-nil pointer-to-record fields) carry the
same tag, the earlier of the two holds a runtime value other than the nil
interface, and the fields collected before the later one are readable,
`StructToMap` fails with `DuplicateTag`, naming a tag that at least two of the
reachable tagged fields carry. -/
theorem StructToMap_duplicate_tag (target : Value) (pre mid post : List structField)
    (d1 d2 : structField)
    (hs : structFields target Flag.rw TagName none
      = Except.ok (pre ++ d1 :: mid ++ d2 :: post))
    (htag : tagOf d1 = tagOf d2)
    (hval : d1.value.val.Interface.isSome = true)
    (hread : ∀ d ∈ pre ++ d1 :: mid, d.value.Interface ≠ none) :
    ∃ t n, StructToMap (some (Value.ptrTo target))
        = Outcome.ret none (some (Error.DuplicateTag t n)) ∧
      2 ≤ ((reachableTagged TagName target).map fun f => f.1.Tag.Get TagName).count t := by
  have hr := structFields_reachable TagName _ _ _ _ hs
  have htags : (pre ++ d1 :: mid ++ d2 :: post).map tagOf
      = (reachableTagged TagName target).map fun f => f.1.Tag.Get TagName := by
    rw [← hr, List.map_map]
    rfl
  have hall := structFields_tagged TagName _ _ _ _ hs
  obtain ⟨t, n, hf, _, hcount⟩ := foldFields_collision (pre ++ d1 :: mid) d2 post []
    (fun d hd => hall d (by simp only [List.mem_append] at hd ⊢; exact Or.inl hd))
    (hall d2 (by simp))
    hread (Or.inr ⟨d1, by simp, htag, hval⟩)
  refine ⟨t, n, ?_, ?_⟩
  · simp only [StructToMap, Flag.elem, hs]
    exact hf
  · rw [← htags]
    rcases hcount with h | h
    · simp [mapGet] at h
    · exact h

/-- Witness of C3 (amended): the scenario of the specification, `Outer{A, B}`
with `A` tagged `x` and `B` an untagged record whose field `C` is tagged `x`,
fails with `DuplicateTag` naming `x`; and so does `S{A, B, C}` with `A` and `B`
tagged `x`, although the field `C`, collected after them, holds a nil
interface. -/
theorem StructToMap_duplicate_tag_witness :
    (∃ t n, StructToMap (some (Value.ptrTo duplicateOuter))
        = Outcome.ret none (some (Error.DuplicateTag t n)) ∧
      2 ≤ ((reachableTagged TagName duplicateOuter).map
        fun f => f.1.Tag.Get TagName).count t) ∧
    StructToMap (some (Value.ptrTo duplicateOuter))
      = Outcome.ret none (some (Error.DuplicateTag "x" "C")) ∧
    (∃ t n, StructToMap (some (Value.ptrTo duplicateBeforeNil))
        = Outcome.ret none (some (Error.DuplicateTag t n)) ∧
      2 ≤ ((reachableTagged TagName duplicateBeforeNil).map
        fun f => f.1.Tag.Get TagName).count t) ∧
    StructToMap (some (Value.ptrTo duplicateBeforeNil))
      = Outcome.ret none (some (Error.DuplicateTag "x" "B")) :=
  ⟨StructToMap_duplicate_tag duplicateOuter [] [] []
      (descriptor Flag.rw (exportedField "A" [("config", "x")]) (intValue 1))
      (descriptor (Flag.rw.field (exportedField "B" []))
        (exportedField "C" [("config", "x")]) (intValue 2))
      rfl rfl rfl
      (by
        intro d hd
        simp only [List.nil_append, List.mem_singleton] at hd
        rw [hd]
        exact Option.some_ne_none _),
   rfl,
   StructToMap_duplicate_tag duplicateBeforeNil [] []
      [descriptor Flag.rw (exportedField "C" [("config", "z")]) nilAny]
      (descriptor Flag.rw (exportedField "A" [("config", "x")]) (intValue 1))
      (descriptor Flag.rw (exportedField "B" [("config", "x")]) (intValue 2))
      rfl rfl rfl
      (by
        intro d hd
        simp only [List.nil_append, List.mem_singleton] at hd
        rw [hd]
        exact Option.some_ne_none _),
   rfl⟩

/-- C4, evaluated at the failing input `S{A: nil, B: 5}` with `A any` and
`B int` both tagged `x`: `structFields` returns two descriptors with the same
tag and `StructToMap` succeeds with a map of one entry. -/
theorem nil_interface_duplicate_undetected :
    structFields nilInterfaceRecord Flag.rw TagName none
      = Except.ok [descriptor Flag.rw (exportedField "A" [("config", "x")]) nilAny,
          descriptor Flag.rw (exportedField "B" [("config", "x")]) (intValue 5)] ∧
    [descriptor Flag.rw (exportedField "A" [("config", "x")]) nilAny,
      descriptor Flag.rw (exportedField "B" [("config", "x")]) (intValue 5)].map tagOf
      = ["x", "x"] ∧
    StructToMap (some (Value.ptrTo nilInterfaceRecord))
      = Outcome.ret (some [("x", some (intValue 5))]) none ∧
    mapLen [("x", some (intValue 5))] = 1 :=
  ⟨rfl, rfl, rfl, rfl⟩

/-- A call of `structFields` on a record that returns a result ran the loop on
the fields of the record, with the map received or an empty one; and so does
the call on any other field list of the same record type. -/
theorem structFields_loop_of_return (ty : String) (l : List (StructField × Value))
    (fl : Flag) (tag : String) (visited : Option Visited)
    (hv : visitedGet (visited.getD []) (GoType.struct ty) = false) :
    structFields (Value.struct ty l) fl tag visited
      = structFieldsLoop (GoType.struct ty) l fl tag (visited.getD []) [] := by
  cases visited with
  | none => simp [structFields, visitedGet]
  | some vis =>
    simp only [Option.getD_some] at hv
    simp [structFields, hv]

/-- A call of `structFields` on a record whose type is marked in `visited`
fails with `RecursiveType`, whatever the fields hold. -/
theorem structFields_visited (ty : String) (l : List (StructField × Value))
    (fl : Flag) (tag : String) (visited : Option Visited)
    (hv : visitedGet (visited.getD []) (GoType.struct ty) = true) :
    structFields (Value.struct ty l) fl tag visited
      = Except.error (Error.RecursiveType (GoType.struct ty)) := by
  cases visited with
  | none => simp [visitedGet] at hv
  | some vis =>
    simp only [Option.getD_some] at hv
    simp [structFields, hv]

/-- C5: a field that carries a non-empty tag is collected by `structFields` as
one descriptor holding its whole value, and what the value contains is never
visited: when the fields before it yield `a` and the fields after it yield `b`,
the result is `a`, then the descriptor of the field, then `b`, whatever the
value is; the call fails only with the error of the fields before it or of the
fields after it; and the way `StructToMap` ends is the same for any two values
of the field that are records or pointers. -/
theorem tagged_field_not_visited (ty : String) (pre post : List (StructField × Value))
    (sf : StructField) (tag : String) (ht : sf.Tag.Get tag ≠ "") :
    (∀ (fl : Flag) (visited : Option Visited) (a b : List structField),
      structFields (Value.struct ty pre) fl tag visited = Except.ok a →
      structFields (Value.struct ty post) fl tag visited = Except.ok b →
      ∀ v, structFields (Value.struct ty (pre ++ (sf, v) :: post)) fl tag visited
        = Except.ok (a ++ descriptor fl sf v :: b)) ∧
    (∀ (fl : Flag) (visited : Option Visited) (e : Error),
      structFields (Value.struct ty pre) fl tag visited = Except.error e →
      ∀ v, structFields (Value.struct ty (pre ++ (sf, v) :: post)) fl tag visited
        = Except.error e) ∧
    (∀ (fl : Flag) (visited : Option Visited) (a : List structField) (e : Error),
      structFields (Value.struct ty pre) fl tag visited = Except.ok a →
      structFields (Value.struct ty post) fl tag visited = Except.error e →
      ∀ v, structFields (Value.struct ty (pre ++ (sf, v) :: post)) fl tag visited
        = Except.error e) ∧
    (tag = TagName → ∀ v1 v2, v1.Type.Kind ≠ Kind.Interface → v2.Type.Kind ≠ Kind.Interface →
      (StructToMap (some (Value.ptrTo (Value.struct ty (pre ++ (sf, v1) :: post))))).status
        = (StructToMap (some (Value.ptrTo
            (Value.struct ty (pre ++ (sf, v2) :: post))))).status) := by
  have hstep : ∀ st fl vis v, fieldStep st sf v fl tag vis = Except.ok [descriptor fl sf v] := by
    intro st fl vis v
    simp [fieldStep, ht]
  have hsplit : ∀ (fl : Flag) (vis : Visited) (v : Value),
      structFieldsLoop (GoType.struct ty) (pre ++ (sf, v) :: post) fl tag vis []
        = match structFieldsLoop (GoType.struct ty) pre fl tag vis [] with
          | Except.error e => Except.error e
          | Except.ok a =>
            prepend (a ++ [descriptor fl sf v])
              (structFieldsLoop (GoType.struct ty) post fl tag vis []) := by
    intro fl vis v
    rw [structFieldsLoop_append]
    cases structFieldsLoop (GoType.struct ty) pre fl tag vis [] with
    | error e => rfl
    | ok a =>
      simp only
      rw [structFieldsLoop_cons, hstep]
      simp only
      rw [structFieldsLoop_acc]
  refine ⟨?_, ?_, ?_, ?_⟩
  · intro fl visited a b hpre hpost v
    by_cases hv : visitedGet (visited.getD []) (GoType.struct ty) = true
    · rw [structFields_visited ty pre fl tag visited hv] at hpre
      simp at hpre
    · simp only [Bool.not_eq_true] at hv
      rw [structFields_loop_of_return ty _ fl tag visited hv] at hpre hpost ⊢
      rw [hsplit, hpre, hpost]
      simp [prepend]
  · intro fl visited e hpre v
    by_cases hv : visitedGet (visited.getD []) (GoType.struct ty) = true
    · rw [structFields_visited ty pre fl tag visited hv] at hpre
      rw [structFields_visited ty _ fl tag visited hv]
      exact hpre
    · simp only [Bool.not_eq_true] at hv
      rw [structFields_loop_of_return ty _ fl tag visited hv] at hpre ⊢
      rw [hsplit, hpre]
  · intro fl visited a e hpre hpost v
    by_cases hv : visitedGet (visited.getD []) (GoType.struct ty) = true
    · rw [structFields_visited ty pre fl tag visited hv] at hpre
      simp at hpre
    · simp only [Bool.not_eq_true] at hv
      rw [structFields_loop_of_return ty _ fl tag visited hv] at hpre hpost ⊢
      rw [hsplit, hpre, hpost]
      rfl
  · intro htag v1 v2 h1 h2
    subst htag
    have hsome : ∀ v : Value, v.Type.Kind ≠ Kind.Interface → v.Interface.isSome = true := by
      intro v hv
      cases v with
      | iface ty dyn => exact absurd rfl hv
      | _ => rfl
    exact StructToMap_tagged_field_status ty pre post sf v1 v2 ht
      (by rw [hsome v1 h1, hsome v2 h2])

/-- Witness of C5: in `Outer{A, B}` with `A` tagged `x` and the record field
`B` tagged `y`, the result is the descriptor of `A` and the descriptor of `B`
holding the whole record, also when the field `C` of `B`, tagged `x` like `A`,
is replaced by an untagged nil pointer to a record; `StructToMap` ends in the
same way on both and binds `y` to the whole record. -/
theorem tagged_field_not_visited_witness :
    structFields shadowOuter Flag.rw TagName none
      = Except.ok [descriptor Flag.rw (exportedField "A" [("config", "x")]) (intValue 1),
          descriptor Flag.rw (exportedField "B" [("config", "y")])
            (Value.struct "Inner" [(exportedField "C" [("config", "x")], intValue 2)])] ∧
    structFields (Value.struct "Outer"
        [(exportedField "A" [("config", "x")], intValue 1),
         (exportedField "B" [("config", "y")], Value.struct "Inner"
           [(exportedField "P" [], Value.nilPtr (GoType.struct "T"))])])
        Flag.rw TagName none
      = Except.ok [descriptor Flag.rw (exportedField "A" [("config", "x")]) (intValue 1),
          descriptor Flag.rw (exportedField "B" [("config", "y")])
            (Value.struct "Inner"
              [(exportedField "P" [], Value.nilPtr (GoType.struct "T"))])] ∧
    (StructToMap (some (Value.ptrTo shadowOuter))).status
      = (StructToMap (some (Value.ptrTo (Value.struct "Outer"
          [(exportedField "A" [("config", "x")], intValue 1),
           (exportedField "B" [("config", "y")], Value.struct "Inner"
             [(exportedField "P" [], Value.nilPtr (GoType.struct "T"))])])))).status ∧
    StructToMap (some (Value.ptrTo shadowOuter))
      = Outcome.ret (some [("x", some (intValue 1)),
          ("y", some (Value.struct "Inner"
            [(exportedField "C" [("config", "x")], intValue 2)]))]) none :=
  ⟨(tagged_field_not_visited "Outer" [(exportedField "A" [("config", "x")], intValue 1)] []
      (exportedField "B" [("config", "y")]) TagName (by decide)).1 Flag.rw none
      [descriptor Flag.rw (exportedField "A" [("config", "x")]) (intValue 1)] [] rfl rfl
      (Value.struct "Inner" [(exportedField "C" [("config", "x")], intValue 2)]),
   (tagged_field_not_visited "Outer" [(exportedField "A" [("config", "x")], intValue 1)] []
      (exportedField "B" [("config", "y")]) TagName (by decide)).1 Flag.rw none
      [descriptor Flag.rw (exportedField "A" [("config", "x")]) (intValue 1)] [] rfl rfl
      (Value.struct "Inner" [(exportedField "P" [], Value.nilPtr (GoType.struct "T"))]),
   (tagged_field_not_visited "Outer" [(exportedField "A" [("config", "x")], intValue 1)] []
      (exportedField "B" [("config", "y")]) TagName (by decide)).2.2.2 rfl _ _
      (by decide) (by decide),
   rfl⟩

/-- C6: on a record with an untagged field that is a nil pointer to a record,
`StructToMap` fails with `NilNestedReference` naming the type of the record
when the fields before it are collected without error, and with the error of
the fields before it, whose root is a `NilNestedReference`, when their
collection fails; when the field carries a non-empty tag instead, it is
collected as it is without being dereferenced, `StructToMap` ends in the same
way as with a non-nil pointer in its place, and a returned map binds the tag to
the nil pointer. -/
theorem nil_pointer_field (ty : String) (pre post : List (StructField × Value))
    (sf : StructField) (elem : String) :
    (sf.Tag.Get TagName = "" →
      (∀ a, structFields (Value.struct ty pre) Flag.rw TagName none = Except.ok a →
        StructToMap (some (Value.ptrTo
            (Value.struct ty (pre ++ (sf, Value.nilPtr (GoType.struct elem)) :: post))))
          = Outcome.ret none (some (Error.NilNestedReference (GoType.struct ty)))) ∧
      (∀ e, structFields (Value.struct ty pre) Flag.rw TagName none = Except.error e →
        StructToMap (some (Value.ptrTo
            (Value.struct ty (pre ++ (sf, Value.nilPtr (GoType.struct elem)) :: post))))
          = Outcome.ret none (some e) ∧
        ∃ t, e.root = Error.NilNestedReference t)) ∧
    (sf.Tag.Get TagName ≠ "" →
      (∀ fl visited r, structFields
          (Value.struct ty (pre ++ (sf, Value.nilPtr (GoType.struct elem)) :: post))
          fl TagName visited = Except.ok r →
        descriptor fl sf (Value.nilPtr (GoType.struct elem)) ∈ r) ∧
      (∀ target, (StructToMap (some (Value.ptrTo
          (Value.struct ty (pre ++ (sf, Value.nilPtr (GoType.struct elem)) :: post))))).status
        = (StructToMap (some (Value.ptrTo
          (Value.struct ty (pre ++ (sf, Value.ptrTo target) :: post))))).status) ∧
      (∀ m, StructToMap (some (Value.ptrTo
          (Value.struct ty (pre ++ (sf, Value.nilPtr (GoType.struct elem)) :: post))))
          = Outcome.ret (some m) none →
        mapGet m (sf.Tag.Get TagName) = some (Value.nilPtr (GoType.struct elem)))) := by
  refine ⟨fun ht => ⟨fun a ha => ?_, fun e he => ⟨?_, ?_⟩⟩, fun ht => ⟨?_, ?_, ?_⟩⟩
  · rw [structFields_struct_nil] at ha
    obtain ⟨e, he, hroot⟩ := structFieldsLoop_nil_pointer (GoType.struct ty) pre post sf elem
      Flag.rw TagName [] ht
    simp only [StructToMap, Flag.elem]
    rw [structFields_struct_nil, he, hroot a ha]
  · rw [structFields_struct_nil] at he
    simp only [StructToMap, Flag.elem]
    rw [structFields_struct_nil, structFieldsLoop_append, he]
  · rw [structFields_nil_visited] at he
    exact structFields_error_root TagName _ Flag.rw e he rfl
  · intro fl visited r hr
    rcases structFields_tagged_field ty pre post sf fl TagName visited ht with
      ⟨e, he⟩ | ⟨a, b, hab⟩
    · rw [he] at hr
      simp at hr
    · rw [hab] at hr
      simp only [Except.ok.injEq] at hr
      rw [← hr]
      simp
  · intro target
    exact StructToMap_tagged_field_status ty pre post sf _ _ ht rfl
  · intro m hm
    obtain ⟨fields, hs, hf⟩ := StructToMap_ok _ m hm
    rcases structFields_tagged_field ty pre post sf Flag.rw TagName none ht with
      ⟨e, he⟩ | ⟨a, b, hab⟩
    · rw [he] at hs
      simp at hs
    · rw [hab] at hs
      simp only [Except.ok.injEq] at hs
      have hmem : descriptor Flag.rw sf (Value.nilPtr (GoType.struct elem)) ∈ fields := by
        rw [← hs]
        simp
      exact foldFields_binds fields [] m hf _ hmem rfl

/-- Witness of C6, on `Outer{P: nil}` with `P *Inner` untagged, then tagged
`p`. -/
theorem nil_pointer_field_witness :
    StructToMap (some (Value.ptrTo (taggedNilRecord (exportedField "P" []))))
      = Outcome.ret none (some (Error.NilNestedReference (GoType.struct "Outer"))) ∧
    (∀ m, StructToMap (some (Value.ptrTo
        (taggedNilRecord (exportedField "P" [("config", "p")]))))
        = Outcome.ret (some m) none →
      mapGet m "p" = some (Value.nilPtr (GoType.struct "Inner"))) ∧
    StructToMap (some (Value.ptrTo (taggedNilRecord (exportedField "P" [("config", "p")]))))
      = Outcome.ret (some [("p", some (Value.nilPtr (GoType.struct "Inner")))]) none :=
  ⟨((nil_pointer_field "Outer" [] [] (exportedField "P" []) "Inner").1 rfl).1 [] rfl,
   ((nil_pointer_field "Outer" [] [] (exportedField "P" [("config", "p")]) "Inner").2
     (by decide)).2.2,
   rfl⟩

/-- Counterexample to C7: on a non-nil pointer to an `int`, a pointer whose
target is not a record, `StructToMap` fails with `NotAStruct`, not with
`NotAPointer`. -/
theorem pointer_to_int_NotAStruct :
    StructToMap (some (Value.ptrTo (intValue 5)))
      = Outcome.ret none (some (Error.NotAStruct (GoType.other "int" OtherKind.Int))) :=
  rfl

/-- C7 (amended): on every input holding a value whose type is not a pointer
type, `StructToMap` fails with `NotAPointer`, naming that type. -/
theorem StructToMap_not_pointer (v : Value) (h : v.Type.Kind ≠ Kind.Ptr) :
    StructToMap (some v) = Outcome.ret none (some (Error.NotAPointer v.Type)) := by
  cases v with
  | other ty k n elems => rfl
  | iface ty dyn => rfl
  | nilPtr elem => exact absurd rfl h
  | ptrTo target => exact absurd rfl h
  | struct ty fs => rfl

/-- Witness of C7 (amended): a record passed by value. -/
theorem StructToMap_not_pointer_witness :
    scenarioOuter.Type.Kind ≠ Kind.Ptr ∧
    StructToMap (some scenarioOuter)
      = Outcome.ret none (some (Error.NotAPointer (GoType.struct "Outer"))) :=
  ⟨by decide, StructToMap_not_pointer scenarioOuter (by decide)⟩

/-- The errors returned by the loop of `structFields` are `NilNestedReference`
or wrap the error of a nested call. -/
theorem structFieldsLoop_error_kind (st : GoType) (fs : List (StructField × Value))
    (fl : Flag) (tag : String) (vis : Visited) (acc : List structField) (e : Error)
    (h : structFieldsLoop st fs fl tag vis acc = Except.error e) :
    e = Error.NilNestedReference st ∨ ∃ n e2, e = Error.Wrapped n e2 := by
  induction fs generalizing acc with
  | nil => simp [structFieldsLoop] at h
  | cons hd tl ih =>
    obtain ⟨sf, fv⟩ := hd
    rcases structFieldsLoop_cons_error st sf fv tl fl tag vis acc e h with hs | ⟨c, _, hl⟩
    · obtain ⟨_, hcases⟩ := fieldStep_error_cases st sf fv fl tag vis e hs
      rcases hcases with ⟨_, _, _, he⟩ | ⟨_, _, e2, _, _, he⟩ | ⟨_, _, e2, _, _, he⟩
      · exact Or.inl he
      · exact Or.inr ⟨_, e2, he⟩
      · exact Or.inr ⟨_, e2, he⟩
    · exact ih [] hl

/-- The fold of `StructToMap` never returns `NilReference`. -/
theorem foldFields_not_NilReference (fields : List structField) (vars : GoMap) (t : GoType) :
    foldFields fields vars ≠ Outcome.ret none (some (Error.NilReference t)) := by
  induction fields generalizing vars with
  | nil => simp [foldFields]
  | cons d rest ih =>
    simp only [foldFields]
    split
    · simp
    · split
      · simp
      · split
        · simp
        · exact ih _

/-- C8: `StructToMap` fails with `NilReference` exactly on the inputs that are
nil pointers, whatever the pointee type; the error names the pointer type. -/
theorem StructToMap_NilReference_iff (obj : GoAny) (t : GoType) :
    StructToMap obj = Outcome.ret none (some (Error.NilReference t)) ↔
      ∃ elem, obj = some (Value.nilPtr elem) ∧ t = GoType.ptr elem := by
  constructor
  · intro h
    cases obj with
    | none => simp [StructToMap] at h
    | some v =>
      cases v with
      | other ty k n elems => simp [StructToMap] at h
      | iface ty dyn => simp [StructToMap] at h
      | struct ty fs => simp [StructToMap] at h
      | nilPtr elem =>
        simp only [StructToMap, Outcome.ret.injEq, Option.some.injEq, Error.NilReference.injEq,
          true_and] at h
        exact ⟨elem, rfl, h.symm⟩
      | ptrTo target =>
        exfalso
        simp only [StructToMap, Flag.elem] at h
        cases hs : structFields target Flag.rw TagName none with
        | ok fields =>
          rw [hs] at h
          exact foldFields_not_NilReference fields [] t h
        | error e =>
          rw [hs] at h
          simp only [Outcome.ret.injEq, Option.some.injEq, true_and] at h
          subst h
          cases target with
          | struct ty fs =>
            rw [structFields_struct_nil] at hs
            rcases structFieldsLoop_error_kind _ _ _ _ _ _ _ hs with h2 | ⟨_, _, h2⟩ <;>
              simp at h2
          | _ => simp [structFields] at hs
  · rintro ⟨elem, rfl, rfl⟩
    rfl

/-- Witness of C8: a nil pointer to a record of type `Inner`. -/
theorem StructToMap_NilReference_iff_witness :
    StructToMap (some (Value.nilPtr (GoType.struct "Inner")))
      = Outcome.ret none (some (Error.NilReference (GoType.ptr (GoType.struct "Inner")))) :=
  (StructToMap_NilReference_iff _ _).2 ⟨GoType.struct "Inner", rfl, rfl⟩

/-- C9: on every value whose kind is not `Struct`, `structFields` fails with
`NotAStruct`, whatever the `visited` map holds; so `StructToMap` fails with
`NotAStruct` on a non-nil pointer to such a value. -/
theorem structFields_NotAStruct (v : Value) (h : v.Type.Kind ≠ Kind.Struct) :
    (∀ (fl : Flag) (tag : String) (visited : Option Visited),
      structFields v fl tag visited = Except.error (Error.NotAStruct v.Type)) ∧
    StructToMap (some (Value.ptrTo v)) = Outcome.ret none (some (Error.NotAStruct v.Type)) := by
  refine ⟨fun fl tag visited => structFields_kind_ne_struct v fl tag visited h, ?_⟩
  simp only [StructToMap]
  rw [structFields_kind_ne_struct v _ _ _ h]

/-- Witness of C9: an `int`, also when `visited` marks the type `int`, and a
pointer to an `int`. -/
theorem structFields_NotAStruct_witness :
    structFields (intValue 5) Flag.rw TagName (some [(GoType.other "int" OtherKind.Int, true)])
      = Except.error (Error.NotAStruct (GoType.other "int" OtherKind.Int)) ∧
    StructToMap (some (Value.ptrTo (intValue 5)))
      = Outcome.ret none (some (Error.NotAStruct (GoType.other "int" OtherKind.Int))) :=
  ⟨(structFields_NotAStruct (intValue 5) (by decide)).1 _ _ _,
   (structFields_NotAStruct (intValue 5) (by decide)).2⟩

/-- Witness of C10, on the scenario of the specification: the descriptor of
`C`, gathered from `Inner`, stands after the descriptor of `A`, at the position
of `B`. -/
theorem structFields_concat_witness :
    structFields scenarioOuter Flag.rw TagName none
      = Except.ok [descriptor Flag.rw (exportedField "A" [("config", "a")]) (intValue 1),
          descriptor (Flag.rw.field (exportedField "B" []))
            (exportedField "C" [("config", "c")]) (intValue 7)] ∧
    [descriptor Flag.rw (exportedField "A" [("config", "a")]) (intValue 1),
      descriptor (Flag.rw.field (exportedField "B" []))
        (exportedField "C" [("config", "c")]) (intValue 7)]
      = ([(exportedField "A" [("config", "a")], intValue 1),
          (exportedField "B" [], Value.ptrTo scenarioInner)].map
            (contribution Flag.rw TagName ((none : Option Visited).getD []))).flatten :=
  ⟨rfl, structFields_concat "Outer" _ Flag.rw TagName none _ rfl⟩

/-! ## Errors of the two functions -/

/-- The errors of `structFields`, by the statement that returns them. -/
theorem structFields_error_kind (v : Value) (fl : Flag) (tag : String)
    (visited : Option Visited) (e : Error)
    (h : structFields v fl tag visited = Except.error e) :
    (∃ t, e = Error.NotAStruct t) ∨ (∃ t, e = Error.RecursiveType t) ∨
      (∃ t, e = Error.NilNestedReference t) ∨ ∃ n e2, e = Error.Wrapped n e2 := by
  cases v with
  | struct ty fs =>
    by_cases hv : visitedGet (visited.getD []) (GoType.struct ty) = true
    · refine Or.inr (Or.inl ⟨GoType.struct ty, ?_⟩)
      cases visited with
      | none => simp [visitedGet] at hv
      | some vis =>
        simp only [Option.getD_some] at hv
        simp [structFields, hv] at h
        exact h.symm
    · have hloop : structFieldsLoop (GoType.struct ty) fs fl tag (visited.getD []) []
          = Except.error e := by
        cases visited with
        | none => simpa [structFields, visitedGet] using h
        | some vis =>
          simp only [Option.getD_some] at hv
          simpa [structFields, hv] using h
      rcases structFieldsLoop_error_kind _ _ _ _ _ _ _ hloop with h2 | h2
      · exact Or.inr (Or.inr (Or.inl ⟨_, h2⟩))
      · exact Or.inr (Or.inr (Or.inr h2))
  | other ty k n elems =>
    simp [structFields] at h
    exact Or.inl ⟨_, h.symm⟩
  | iface ty dyn =>
    simp [structFields] at h
    exact Or.inl ⟨_, h.symm⟩
  | nilPtr elem =>
    simp [structFields] at h
    exact Or.inl ⟨_, h.symm⟩
  | ptrTo target =>
    simp [structFields] at h
    exact Or.inl ⟨_, h.symm⟩

/-- An error of `structFields` called with a nil `visited` is `NotAStruct`, or
has a `NilNestedReference` at its root. -/
theorem structFields_nil_error_root (v : Value) (fl : Flag) (tag : String) (e : Error)
    (h : structFields v fl tag none = Except.error e) :
    (∃ t, e = Error.NotAStruct t) ∨ ∃ t, e.root = Error.NilNestedReference t := by
  by_cases hk : v.Type.Kind = Kind.Struct
  · rw [structFields_nil_visited] at h
    exact Or.inr (structFields_error_root tag v fl e h hk)
  · rw [structFields_kind_ne_struct v fl tag none hk] at h
    simp only [Except.error.injEq] at h
    exact Or.inl ⟨_, h.symm⟩

/-- What the fold of `StructToMap` returns with an error: no map, and the error
is `UntaggedField` for a descriptor without tag or `DuplicateTag`. -/
theorem foldFields_error (fields : List structField) (vars : GoMap) (val : Option GoMap)
    (e : Error) (h : foldFields fields vars = Outcome.ret val (some e)) :
    val = none ∧
      ((∃ d ∈ fields, tagOf d = "" ∧ e = Error.UntaggedField d.Name) ∨
        ∃ t n, e = Error.DuplicateTag t n) := by
  induction fields generalizing vars with
  | nil => simp [foldFields] at h
  | cons d rest ih =>
    simp only [foldFields] at h
    by_cases ht : d.Tag.Get TagName = ""
    · simp only [ht, if_true, Outcome.ret.injEq, Option.some.injEq] at h
      exact ⟨h.1.symm, Or.inl ⟨d, List.mem_cons_self _ _, ht, h.2.symm⟩⟩
    · simp only [ht, if_false] at h
      by_cases hg : (mapGet vars (d.Tag.Get TagName)).isSome = true
      · simp only [hg, if_true, Outcome.ret.injEq, Option.some.injEq] at h
        exact ⟨h.1.symm, Or.inr ⟨_, _, h.2.symm⟩⟩
      · simp only [hg, Bool.false_eq_true, if_false] at h
        cases hi : d.value.Interface with
        | none => simp [hi] at h
        | some a =>
          simp only [hi] at h
          obtain ⟨h1, h2⟩ := ih _ h
          refine ⟨h1, ?_⟩
          rcases h2 with ⟨d2, hd2, h3⟩ | h2
          · exact Or.inl ⟨d2, List.mem_cons_of_mem _ hd2, h3⟩
          · exact Or.inr h2

/-- What the fold of `StructToMap` returns without an error: a map. -/
theorem foldFields_ok_some (fields : List structField) (vars : GoMap) (val : Option GoMap)
    (h : foldFields fields vars = Outcome.ret val none) : ∃ m, val = some m := by
  induction fields generalizing vars with
  | nil =>
    simp only [foldFields, Outcome.ret.injEq, and_true] at h
    exact ⟨vars, h.symm⟩
  | cons d rest ih =>
    simp only [foldFields] at h
    by_cases ht : d.Tag.Get TagName = ""
    · simp [ht] at h
    · simp only [ht, if_false] at h
      by_cases hg : (mapGet vars (d.Tag.Get TagName)).isSome = true
      · simp [hg] at h
      · simp only [hg, Bool.false_eq_true, if_false] at h
        cases hi : d.value.Interface with
        | none => simp [hi] at h
        | some a =>
          simp only [hi] at h
          exact ih _ h

/-- The returns of `StructToMap` with an error: there is no map, and the error
comes from one of the checks of `StructToMap`, from `structFields` or from the
fold. -/
theorem StructToMap_error_cases (obj : GoAny) (val : Option GoMap) (e : Error)
    (h : StructToMap obj = Outcome.ret val (some e)) :
    val = none ∧
      ((∃ t, e = Error.NotAPointer t) ∨ (∃ t, e = Error.NilReference t) ∨
        (∃ t, e = Error.NotAStruct t) ∨ (∃ t, e.root = Error.NilNestedReference t) ∨
        ∃ t n, e = Error.DuplicateTag t n) := by
  cases obj with
  | none => simp [StructToMap] at h
  | some v =>
    cases v with
    | other ty k n elems =>
      simp [StructToMap] at h
      exact ⟨h.1.symm, Or.inl ⟨_, h.2.symm⟩⟩
    | iface ty dyn =>
      simp [StructToMap] at h
      exact ⟨h.1.symm, Or.inl ⟨_, h.2.symm⟩⟩
    | struct ty fs =>
      simp [StructToMap] at h
      exact ⟨h.1.symm, Or.inl ⟨_, h.2.symm⟩⟩
    | nilPtr elem =>
      simp [StructToMap] at h
      exact ⟨h.1.symm, Or.inr (Or.inl ⟨_, h.2.symm⟩)⟩
    | ptrTo target =>
      simp only [StructToMap, Flag.elem] at h
      cases hs : structFields target Flag.rw TagName none with
      | error e2 =>
        rw [hs] at h
        simp only [Outcome.ret.injEq, Option.some.injEq] at h
        refine ⟨h.1.symm, ?_⟩
        rw [← h.2]
        rcases structFields_nil_error_root target Flag.rw TagName e2 hs with h2 | h2
        · exact Or.inr (Or.inr (Or.inl h2))
        · exact Or.inr (Or.inr (Or.inr (Or.inl h2)))
      | ok fields =>
        rw [hs] at h
        simp only at h
        obtain ⟨h1, h2⟩ := foldFields_error fields [] val e h
        refine ⟨h1, ?_⟩
        rcases h2 with ⟨d, hd, ht, _⟩ | h2
        · exact absurd ht (structFields_tagged TagName target Flag.rw none fields hs d hd)
        · exact Or.inr (Or.inr (Or.inr (Or.inr h2)))

/-! ## The claims on errors and on skipped fields -/

/-- The path of names recorded by the wrappers of an error of `structFields`
leads from the record to a record that holds an untagged nil pointer to a
record, whose type the root of the error names. -/
theorem structFields_error_chain (tag : String) (v : Value) :
    ∀ (fl : Flag) (e : Error), structFields v fl tag (some []) = Except.error e →
      v.Type.Kind = Kind.Struct →
      ∃ ty fs sf elem, FieldChain tag v e.path (Value.struct ty fs) ∧
        (sf, Value.nilPtr elem) ∈ fs ∧ elem.Kind = Kind.Struct ∧ sf.Tag.Get tag = "" ∧
        e.root = Error.NilNestedReference (GoType.struct ty) := by
  refine Value.induction
    (P := fun v => ∀ (fl : Flag) (e : Error),
      structFields v fl tag (some []) = Except.error e →
      v.Type.Kind = Kind.Struct →
      ∃ ty fs sf elem, FieldChain tag v e.path (Value.struct ty fs) ∧
        (sf, Value.nilPtr elem) ∈ fs ∧ elem.Kind = Kind.Struct ∧ sf.Tag.Get tag = "" ∧
        e.root = Error.NilNestedReference (GoType.struct ty))
    (Q := fun l => ∀ (ty0 : String) (all : List (StructField × Value)) (fl : Flag)
      (e : Error), (∀ x ∈ l, x ∈ all) →
      structFieldsLoop (GoType.struct ty0) l fl tag [] [] = Except.error e →
      ∃ ty fs sf elem, FieldChain tag (Value.struct ty0 all) e.path (Value.struct ty fs) ∧
        (sf, Value.nilPtr elem) ∈ fs ∧ elem.Kind = Kind.Struct ∧ sf.Tag.Get tag = "" ∧
        e.root = Error.NilNestedReference (GoType.struct ty))
    ?_ ?_ ?_ ?_ ?_ ?_ ?_ v
  · intro ty k n elems fl e _ hk
    cases k <;> simp [Value.Type, GoType.Kind, OtherKind.toKind] at hk
  · intro ty dyn fl e _ hk
    simp [Value.Type, GoType.Kind] at hk
  · intro elem fl e _ hk
    simp [Value.Type, GoType.Kind] at hk
  · intro target _ fl e _ hk
    simp [Value.Type, GoType.Kind] at hk
  · intro ty fs ih fl e h _
    rw [structFields_struct ty fs fl tag [] (by simp [visitedGet])] at h
    exact ih ty fs fl e (fun x hx => hx) h
  · intro ty0 all fl e _ h
    simp [structFieldsLoop] at h
  · intro sf fv rest ihv iht ihrest ty0 all fl e hsub h
    have hmem : (sf, fv) ∈ all := hsub _ (List.mem_cons_self _ _)
    rcases structFieldsLoop_cons_error _ sf fv rest fl tag [] [] e h with hs | ⟨c, _, hl⟩
    · obtain ⟨hut, hcases⟩ := fieldStep_error_cases _ sf fv fl tag [] e hs
      rcases hcases with ⟨elem, hfv, hk, he⟩ | ⟨ty, fs, e2, hfv, hs2, he⟩ |
        ⟨ty, fs, e2, hfv, hs2, he⟩
      · refine ⟨ty0, all, sf, elem, ?_, by rw [← hfv]; exact hmem, hk, hut, ?_⟩
        · rw [he]
          exact FieldChain.here ty0 all
        · rw [he]
          rfl
      · obtain ⟨ty2, fs2, sf2, elem2, hch, hm2, hk2, ht2, hroot⟩ := iht _ hfv _ e2 hs2 rfl
        refine ⟨ty2, fs2, sf2, elem2, ?_, hm2, hk2, ht2, ?_⟩
        · rw [he]
          exact FieldChain.deref ty0 all sf _ _ _ (by rw [← hfv]; exact hmem) hut hch
        · rw [he]
          exact hroot
      · rw [hfv] at ihv hmem
        obtain ⟨ty2, fs2, sf2, elem2, hch, hm2, hk2, ht2, hroot⟩ := ihv _ e2 hs2 rfl
        refine ⟨ty2, fs2, sf2, elem2, ?_, hm2, hk2, ht2, ?_⟩
        · rw [he]
          exact FieldChain.direct ty0 all sf _ _ _ hmem hut hch
        · rw [he]
          exact hroot
    · exact ihrest ty0 all fl e (fun x hx => hsub x (List.mem_cons_of_mem _ hx)) hl

/-- C11: when the fields declared before an untagged record (or non-nil
pointer-to-record) field are collected without failure and the recursive call
on that field fails with `e`, `structFields` fails with `e` wrapped by the name
of the field, whatever fields come after it; unwrapping gives back the root of
`e`; and the names recorded in an error that `structFields` hands to
`StructToMap` lead from the top-level record, through untagged fields, to the
record holding the offending nil pointer, which the root of the error names. -/
theorem fail_fast_wrapping (ty : String) (pre : List (StructField × Value))
    (sf : StructField) (fv : Value) (fl : Flag) (tag : String)
    (visited : Option Visited) (a : List structField) (e : Error)
    (hpre : structFields (Value.struct ty pre) fl tag visited = Except.ok a)
    (ht : sf.Tag.Get tag = "")
    (hrec : (∃ ty2 fs2, fv = Value.struct ty2 fs2 ∧
        structFields fv (fl.field sf) tag (some (visited.getD [])) = Except.error e) ∨
      (∃ ty2 fs2, fv = Value.ptrTo (Value.struct ty2 fs2) ∧
        structFields (Value.struct ty2 fs2) (fl.field sf).elem tag
          (some (visited.getD [])) = Except.error e)) :
    (∀ post, structFields (Value.struct ty (pre ++ (sf, fv) :: post)) fl tag visited
      = Except.error (Error.Wrapped sf.Name e)) ∧
    (Error.Wrapped sf.Name e).root = e.root ∧
    (Error.Wrapped sf.Name e).path = sf.Name :: e.path ∧
    (∀ (target : Value) (err : Error), target.Type.Kind = Kind.Struct →
      structFields target Flag.rw TagName none = Except.error err →
      StructToMap (some (Value.ptrTo target)) = Outcome.ret none (some err) ∧
      ∃ ty3 fs3 sf3 elem, FieldChain TagName target err.path (Value.struct ty3 fs3) ∧
        (sf3, Value.nilPtr elem) ∈ fs3 ∧ elem.Kind = Kind.Struct ∧
        sf3.Tag.Get TagName = "" ∧
        err.root = Error.NilNestedReference (GoType.struct ty3)) := by
  refine ⟨fun post => ?_, rfl, rfl, fun target err hk herr => ⟨?_, ?_⟩⟩
  · have hvis : visitedGet (visited.getD []) (GoType.struct ty) = false := by
      by_contra hv
      simp only [Bool.not_eq_false] at hv
      cases visited with
      | none => simp [visitedGet] at hv
      | some vis =>
        simp only [Option.getD_some] at hv
        simp [structFields, hv] at hpre
    have hloop : ∀ l, structFields (Value.struct ty l) fl tag visited
        = structFieldsLoop (GoType.struct ty) l fl tag (visited.getD []) [] := by
      intro l
      cases visited with
      | none => simp [structFields, visitedGet]
      | some vis =>
        simp only [Option.getD_some] at hvis
        simp [structFields, hvis]
    have hstep : fieldStep (GoType.struct ty) sf fv fl tag (visited.getD [])
        = Except.error (Error.Wrapped sf.Name e) := by
      rcases hrec with ⟨ty2, fs2, hfv, hs⟩ | ⟨ty2, fs2, hfv, hs⟩
      · rw [hfv] at hs ⊢
        simp [fieldStep, ht, hs]
      · rw [hfv]
        simp [fieldStep, ht, hs, Value.Type, GoType.Kind]
    rw [hloop] at hpre ⊢
    rw [structFieldsLoop_append, hpre]
    simp only
    rw [structFieldsLoop_cons, hstep]
  · simp only [StructToMap, Flag.elem]
    rw [herr]
  · rw [structFields_nil_visited] at herr
    exact structFields_error_chain TagName target Flag.rw err herr hk

/-- Witness of C11: in `Outer{A, B, C}` the untagged field `B` points to a
record `Mid` whose untagged pointer field `P` is nil: the error of the call on
`Mid` comes back wrapped by the name `B`, and `C` is not examined. -/
theorem fail_fast_wrapping_witness :
    (∀ post, structFields (Value.struct "Outer"
        ([(exportedField "A" [("config", "a")], intValue 1)]
          ++ (exportedField "B" [], Value.ptrTo (Value.struct "Mid"
              [(exportedField "P" [], Value.nilPtr (GoType.struct "Inner"))])) :: post))
        Flag.rw TagName none
      = Except.error (Error.Wrapped "B" (Error.NilNestedReference (GoType.struct "Mid")))) ∧
    StructToMap (some (Value.ptrTo nestedNil))
      = Outcome.ret none
          (some (Error.Wrapped "B" (Error.NilNestedReference (GoType.struct "Mid")))) :=
  ⟨(fail_fast_wrapping "Outer" [(exportedField "A" [("config", "a")], intValue 1)]
      (exportedField "B" [])
      (Value.ptrTo (Value.struct "Mid"
        [(exportedField "P" [], Value.nilPtr (GoType.struct "Inner"))]))
      Flag.rw TagName none _
      (Error.NilNestedReference (GoType.struct "Mid")) rfl rfl
      (Or.inr ⟨"Mid", [(exportedField "P" [], Value.nilPtr (GoType.struct "Inner"))],
        rfl, rfl⟩)).1,
   ((fail_fast_wrapping "Outer" [(exportedField "A" [("config", "a")], intValue 1)]
      (exportedField "B" [])
      (Value.ptrTo (Value.struct "Mid"
        [(exportedField "P" [], Value.nilPtr (GoType.struct "Inner"))]))
      Flag.rw TagName none _
      (Error.NilNestedReference (GoType.struct "Mid")) rfl rfl
      (Or.inr ⟨"Mid", [(exportedField "P" [], Value.nilPtr (GoType.struct "Inner"))],
        rfl, rfl⟩)).2.2.2 nestedNil _ rfl rfl).1⟩

/-- C12: whenever `StructToMap` returns an error, the map it returns is nil,
also when the error is found by the fold after entries were inserted. -/
theorem StructToMap_error_no_map (obj : GoAny) (val : Option GoMap) (e : Error)
    (h : StructToMap obj = Outcome.ret val (some e)) : val = none :=
  (StructToMap_error_cases obj val e h).1

/-- Witness of C12: on `Outer{A, B}` with `A` tagged `x` and the field `C` of
the untagged record `B` tagged `x`, the fold inserts `x` for `A` and then fails
at `C`; the map returned is nil. -/
theorem StructToMap_error_no_map_witness :
    foldFields [descriptor Flag.rw (exportedField "A" [("config", "x")]) (intValue 1)] []
      = Outcome.ret (some [("x", some (intValue 1))]) none ∧
    StructToMap (some (Value.ptrTo duplicateOuter))
      = Outcome.ret none (some (Error.DuplicateTag "x" "C")) ∧
    (none : Option GoMap) = none :=
  ⟨rfl, rfl,
   StructToMap_error_no_map (some (Value.ptrTo duplicateOuter)) none
     (Error.DuplicateTag "x" "C") rfl⟩

/-- C13: every descriptor that `structFields` returns for the tag name
`TagName` carries a non-empty `TagName` tag, and `StructToMap` never returns
`UntaggedField`, bare or wrapped. -/
theorem StructToMap_never_UntaggedField :
    (∀ (v : Value) (fl : Flag) (visited : Option Visited) (r : List structField),
      structFields v fl TagName visited = Except.ok r → ∀ d ∈ r, tagOf d ≠ "") ∧
    (∀ (obj : GoAny) (val : Option GoMap) (e : Error) (name : String),
      StructToMap obj = Outcome.ret val (some e) → e.root ≠ Error.UntaggedField name) := by
  refine ⟨fun v fl visited r h d hd => structFields_tagged TagName v fl visited r h d hd, ?_⟩
  intro obj val e name h
  rcases (StructToMap_error_cases obj val e h).2 with
    ⟨t, rfl⟩ | ⟨t, rfl⟩ | ⟨t, rfl⟩ | ⟨t, ht⟩ | ⟨t, n, rfl⟩
  · simp [Error.root]
  · simp [Error.root]
  · simp [Error.root]
  · rw [ht]
    simp
  · simp [Error.root]

/-- Witness of C13, on the scenario of the specification and on a record that
makes `StructToMap` fail. -/
theorem StructToMap_never_UntaggedField_witness :
    (∀ d ∈ [descriptor Flag.rw (exportedField "A" [("config", "a")]) (intValue 1),
        descriptor (Flag.rw.field (exportedField "B" []))
          (exportedField "C" [("config", "c")]) (intValue 7)], tagOf d ≠ "") ∧
    (Error.DuplicateTag "x" "C").root ≠ Error.UntaggedField "C" :=
  ⟨StructToMap_never_UntaggedField.1 scenarioOuter Flag.rw none _ rfl,
   StructToMap_never_UntaggedField.2 (some (Value.ptrTo duplicateOuter)) none _ "C" rfl⟩

/-- A fold that fails with `DuplicateTag`: the error names the tag and the name
of a descriptor whose tag is already bound to a non-nil value at the start or
is carried by a descriptor folded before it. -/
theorem foldFields_DuplicateTag (fields : List structField) (vars : GoMap)
    (val : Option GoMap) (t n : String)
    (h : foldFields fields vars = Outcome.ret val (some (Error.DuplicateTag t n))) :
    ∃ pre d post, fields = pre ++ d :: post ∧ tagOf d = t ∧ d.Name = n ∧
      ((mapGet vars t).isSome = true ∨ ∃ d1 ∈ pre, tagOf d1 = t) ∧
      ∃ m, foldFields pre vars = Outcome.ret (some m) none := by
  induction fields generalizing vars with
  | nil => simp [foldFields] at h
  | cons d0 rest ih =>
    by_cases ht : d0.Tag.Get TagName = ""
    · simp [foldFields, ht] at h
    · by_cases hg : (mapGet vars (d0.Tag.Get TagName)).isSome = true
      · simp only [foldFields, ht, hg, if_false, if_true, Outcome.ret.injEq, Option.some.injEq,
          Error.DuplicateTag.injEq] at h
        refine ⟨[], d0, rest, rfl, h.2.1, h.2.2, Or.inl ?_, vars, rfl⟩
        rw [← h.2.1]
        exact hg
      · cases hi : d0.value.Interface with
        | none => simp [foldFields, ht, hg, hi] at h
        | some a =>
          have hstep : ∀ l, foldFields (d0 :: l) vars
              = foldFields l (mapSet vars (tagOf d0) a) := by
            intro l
            simp [foldFields, ht, hg, hi, tagOf]
          rw [hstep] at h
          obtain ⟨pre, d, post, hsplit, htag, hname, hprev, m, hm⟩ := ih _ h
          refine ⟨d0 :: pre, d, post, by rw [hsplit]; rfl, htag, hname, ?_, m, ?_⟩
          · by_cases he : t = tagOf d0
            · exact Or.inr ⟨d0, List.mem_cons_self _ _, he.symm⟩
            · rw [mapGet_mapSet_other _ _ _ _ he] at hprev
              rcases hprev with h1 | ⟨d1, hd1, h1⟩
              · exact Or.inl h1
              · exact Or.inr ⟨d1, List.mem_cons_of_mem _ hd1, h1⟩
          · rw [hstep]
            exact hm

/-- C16: when `StructToMap` fails with `DuplicateTag`, the descriptors
collected by `structFields` split around two descriptors with the tag the
error names, and the field name in the error is that of the later one, the
first descriptor at which the fold finds its tag already bound. -/
theorem DuplicateTag_reports_later_field (target : Value) (val : Option GoMap)
    (t n : String)
    (h : StructToMap (some (Value.ptrTo target))
      = Outcome.ret val (some (Error.DuplicateTag t n))) :
    ∃ fields pre d1 mid d2 post,
      structFields target Flag.rw TagName none = Except.ok fields ∧
      fields = pre ++ d1 :: mid ++ d2 :: post ∧
      tagOf d1 = t ∧ tagOf d2 = t ∧ d2.Name = n ∧
      ∃ m, foldFields (pre ++ d1 :: mid) [] = Outcome.ret (some m) none := by
  simp only [StructToMap, Flag.elem] at h
  cases hs : structFields target Flag.rw TagName none with
  | error e2 =>
    rw [hs] at h
    simp only [Outcome.ret.injEq, Option.some.injEq] at h
    rcases structFields_error_kind _ _ _ _ _ hs with ⟨_, h2⟩ | ⟨_, h2⟩ | ⟨_, h2⟩ | ⟨_, _, h2⟩ <;>
      · rw [h2] at h
        simp at h
  | ok fields =>
    rw [hs] at h
    simp only at h
    obtain ⟨pre, d, post, hsplit, htag, hname, hprev, m, hm⟩ :=
      foldFields_DuplicateTag fields [] val t n h
    rcases hprev with h1 | ⟨d1, hd1, h1⟩
    · simp [mapGet] at h1
    · obtain ⟨p1, p2, hp⟩ := List.append_of_mem hd1
      refine ⟨fields, p1, d1, p2, d, post, rfl, ?_, h1, htag, hname, m, ?_⟩
      · rw [hsplit, hp]
      · rw [← hp]
        exact hm

/-- Witness of C16: on `Outer{A, B}` with `A` tagged `x` and the field `C` of
the untagged record `B` tagged `x`, the error names `x` and the field `C`. -/
theorem DuplicateTag_reports_later_field_witness :
    StructToMap (some (Value.ptrTo duplicateOuter))
      = Outcome.ret none (some (Error.DuplicateTag "x" "C")) ∧
    ∃ fields pre d1 mid d2 post,
      structFields duplicateOuter Flag.rw TagName none = Except.ok fields ∧
      fields = pre ++ d1 :: mid ++ d2 :: post ∧
      tagOf d1 = "x" ∧ tagOf d2 = "x" ∧ d2.Name = "C" ∧
      ∃ m, foldFields (pre ++ d1 :: mid) [] = Outcome.ret (some m) none :=
  ⟨rfl, DuplicateTag_reports_later_field duplicateOuter none "x" "C" rfl⟩

/-- C17: an untagged field whose type is neither a record type nor a pointer
to a record type contributes nothing to `structFields` and raises no error:
removing the field from the record leaves the result unchanged. -/
theorem skipped_field_removable (ty : String) (pre post : List (StructField × Value))
    (sf : StructField) (fv : Value) (fl : Flag) (tag : String) (visited : Option Visited)
    (ht : sf.Tag.Get tag = "")
    (hk : fv.Type.Kind ≠ Kind.Struct)
    (hp : ∀ elem, fv.Type = GoType.ptr elem → elem.Kind ≠ Kind.Struct) :
    structFields (Value.struct ty (pre ++ (sf, fv) :: post)) fl tag visited
      = structFields (Value.struct ty (pre ++ post)) fl tag visited := by
  have hstep : ∀ st vis, fieldStep st sf fv fl tag vis = Except.ok [] := by
    intro st vis
    cases fv with
    | other ty k n elems => simp [fieldStep, ht]
    | iface ty dyn => simp [fieldStep, ht]
    | nilPtr elem =>
      have := hp elem rfl
      simp [fieldStep, ht, this]
    | ptrTo target =>
      have := hp target.Type rfl
      simp [fieldStep, ht, this]
    | struct ty fs => exact absurd rfl hk
  have hloop : ∀ st vis acc, structFieldsLoop st (pre ++ (sf, fv) :: post) fl tag vis acc
      = structFieldsLoop st (pre ++ post) fl tag vis acc := by
    intro st vis acc
    rw [structFieldsLoop_append, structFieldsLoop_append]
    cases structFieldsLoop st pre fl tag vis acc with
    | error e => rfl
    | ok r =>
      simp only
      rw [structFieldsLoop_cons, hstep]
      simp
  cases visited with
  | none => simp only [structFields, hloop]
  | some vis => simp only [structFields, hloop]

/-- Witness of C17: between the fields `A` and `B` of the scenario of the
specification, an untagged field holding a slice of records, one of which has
a tagged field and a nil pointer, changes nothing. -/
theorem skipped_field_removable_witness :
    structFields (Value.struct "Outer"
        ([(exportedField "A" [("config", "a")], intValue 1)]
          ++ (exportedField "S" [], sliceOfRecords)
            :: [(exportedField "B" [], Value.ptrTo scenarioInner)]))
        Flag.rw TagName none
      = structFields (Value.struct "Outer"
        ([(exportedField "A" [("config", "a")], intValue 1)]
          ++ [(exportedField "B" [], Value.ptrTo scenarioInner)]))
        Flag.rw TagName none :=
  skipped_field_removable "Outer" _ _ (exportedField "S" []) sliceOfRecords Flag.rw TagName
    none rfl (by decide) (by intro elem h; cases h)

/-- The call of `structFields` on the list of `n + 1` records of type `T`
fails with `NilNestedReference` wrapped `n` times. -/
theorem structFields_selfChain (n : Nat) (fl : Flag) :
    structFields (selfChain n) fl TagName (some [])
      = Except.error (wrapNext n (Error.NilNestedReference (GoType.struct "T"))) := by
  induction n generalizing fl with
  | zero => rfl
  | succ n ih =>
    have hk : (selfChain n).Type.Kind = Kind.Struct := by
      cases n <;> rfl
    have ht : (exportedField "Next" []).Tag.Get TagName = "" := rfl
    rw [selfChain, structFields_struct _ _ _ _ _ (by simp [visitedGet]), structFieldsLoop_cons]
    simp only [fieldStep, ht, hk, ih, wrapNext]
    rfl

/-- C14, evaluated on the lists of `n + 1` records of the single
self-referential type `T`: `structFields` descends through all the records,
one nested call for each, and `StructToMap` fails with `NilNestedReference`
under `n` wrappers, one for each nested call on the type `T`; it never fails
with `RecursiveType`. -/
theorem recursion_depth_follows_instances (n : Nat) :
    StructToMap (some (Value.ptrTo (selfChain n)))
      = Outcome.ret none (some (wrapNext n (Error.NilNestedReference (GoType.struct "T")))) ∧
    (wrapNext n (Error.NilNestedReference (GoType.struct "T"))).path.length = n ∧
    (wrapNext n (Error.NilNestedReference (GoType.struct "T"))).root
      = Error.NilNestedReference (GoType.struct "T") := by
  refine ⟨?_, ?_, ?_⟩
  · simp only [StructToMap, Flag.elem]
    rw [structFields_nil_visited, structFields_selfChain]
  · induction n with
    | zero => rfl
    | succ n ih => simp [wrapNext, Error.path, ih]
  · induction n with
    | zero => rfl
    | succ n ih => simpa [wrapNext, Error.root] using ih

/-- C18, evaluated at the failing input `T{Next: &T{Next: nil}}`: the call of
`structFields` on the inner record of type `T`, nested in the call on the
outer record of the same type, receives an empty `visited`, runs its loop and
fails at its own nil field; the error is not `RecursiveType`.  Two sibling
fields of the same record type are both collected. -/
theorem nested_same_type_not_detected :
    StructToMap (some (Value.ptrTo (selfChain 1)))
      = Outcome.ret none
          (some (Error.Wrapped "Next" (Error.NilNestedReference (GoType.struct "T")))) ∧
    structFields siblingsOuter Flag.rw TagName none
      = Except.ok [descriptor (Flag.rw.field (exportedField "L" []))
            (exportedField "C" [("config", "c")]) (intValue 1),
          descriptor (Flag.rw.field (exportedField "R" []))
            (exportedField "C" [("config", "c")]) (intValue 2)] :=
  ⟨rfl, rfl⟩

/-- C19: `StructToMap` never returns `RecursiveType`, bare or wrapped. -/
theorem StructToMap_never_RecursiveType (obj : GoAny) (val : Option GoMap) (e : Error)
    (t : GoType) (h : StructToMap obj = Outcome.ret val (some e)) :
    e.root ≠ Error.RecursiveType t := by
  rcases (StructToMap_error_cases obj val e h).2 with
    ⟨t2, rfl⟩ | ⟨t2, rfl⟩ | ⟨t2, rfl⟩ | ⟨t2, ht⟩ | ⟨t2, n, rfl⟩
  · simp [Error.root]
  · simp [Error.root]
  · simp [Error.root]
  · rw [ht]
    simp
  · simp [Error.root]

/-- Witness of C19: on `T{Next: &T{Next: nil}}`, a record nested in a record of
the same type, the error is not `RecursiveType`. -/
theorem StructToMap_never_RecursiveType_witness :
    (Error.Wrapped "Next" (Error.NilNestedReference (GoType.struct "T"))).root
      ≠ Error.RecursiveType (GoType.struct "T") :=
  StructToMap_never_RecursiveType (some (Value.ptrTo (selfChain 1))) none _ _ rfl

/-- C20, evaluated at the failing inputs: `StructToMap` panics on the untyped
nil value, and on a pointer to a record whose tagged field is unexported. -/
theorem StructToMap_panics :
    StructToMap none = Outcome.panic ∧
    structFields unexportedTagged Flag.rw TagName none
      = Except.ok [descriptor Flag.rw (unexportedField "x" [("config", "x")]) (intValue 1)] ∧
    (descriptor Flag.rw (unexportedField "x" [("config", "x")]) (intValue 1)).value.Interface
      = none ∧
    StructToMap (some (Value.ptrTo unexportedTagged)) = Outcome.panic :=
  ⟨rfl, rfl, rfl, rfl⟩

end Config
